import Mathlib

/-!
Verification development for the scan-orchestration service
(`scanner/app/services/scanner.py`, `aws_service_detector.py`,
`gcp_service_detector.py`, `gemini_client.py`, `schemas.py`).

The Python source is shallowly embedded: pure functions become Lean
functions, the stateful worker loop becomes an explicit fold over the
(arbitrary) completion order of the per-target futures, and the
blocking I/O collaborators (DNS, geolocation, port probing, the
Gemini HTTP call, the provider range fetch) become explicit
parameters carrying the collaborator's outcome.
-/

/-! ### Character constants (quote, backslash, braces) -/

def qChar : Char := Char.ofNat 34

def bsChar : Char := Char.ofNat 92

def lcbChar : Char := Char.ofNat 123

def rcbChar : Char := Char.ofNat 125

/-! ### Python string helpers -/

/-- Is `p` a prefix of the character list? -/
def charsPrefix : List Char → List Char → Bool
  | [], _ => true
  | _ :: _, [] => false
  | p :: ps, c :: cs => p = c && charsPrefix ps cs

/-- Does `pat` occur as a contiguous run inside the character list? -/
def charsInfix (pat : List Char) : List Char → Bool
  | [] => pat.isEmpty
  | c :: cs => charsPrefix pat (c :: cs) || charsInfix pat cs

/-- Models Python `pat in s` for strings (substring containment). -/
def containsSubstr (s pat : String) : Bool :=
  charsInfix pat.data s.data

/-- Models Python `s.lower()` for the ASCII strings involved. -/
def pyLower (s : String) : String :=
  String.mk (s.data.map Char.toLower)

/-- The whitespace set of Python `str.strip()` (ASCII part). -/
def pyWsChar (c : Char) : Bool :=
  c = ' ' || c.toNat = 9 || c.toNat = 10 || c.toNat = 13
    || c.toNat = 11 || c.toNat = 12

/-- Models Python `s.strip()`. -/
def pyStrip (s : String) : String :=
  String.mk (((s.data.dropWhile pyWsChar).reverse.dropWhile pyWsChar).reverse)

/-- Models Python `str(sorted_list)` for a list of ints, e.g. `[22, 80]`. -/
def pyIntListRepr (l : List Nat) : String :=
  "[" ++ String.intercalate ", " (l.map toString) ++ "]"

/-- Models Python `str(opt)` where `opt` is an `Optional[str]` interpolated
into an f-string: `None` prints as `"None"`. -/
def pyOptStr : Option String → String
  | some s => s
  | none => "None"

/-! ### JSON values and a model of Python `json.loads`

`gemini_client.py` parses the raw Gemini response with `json.loads`.
We model the stdlib parser: JSON values, strict-mode string/number
grammar, plus the CPython extensions `NaN`/`Infinity`/`-Infinity`.
Numbers are kept as their lexeme (no float semantics are needed:
only truthiness of a parsed value is ever consumed downstream). -/

inductive JVal where
  | null
  | bool (b : Bool)
  | str (s : String)
  | num (lexeme : String)
  | arr (elems : List JVal)
  | obj (fields : List (String × JVal))

/-- JSON whitespace (exactly the four characters the stdlib accepts). -/
def jsonWs (c : Char) : Bool :=
  c = ' ' || c = Char.ofNat 9 || c = Char.ofNat 10 || c = Char.ofNat 13

def skipJsonWs : List Char → List Char
  | [] => []
  | c :: cs => if jsonWs c then skipJsonWs cs else c :: cs

def hexVal (c : Char) : Option Nat :=
  if '0' ≤ c ∧ c ≤ '9' then some (c.toNat - 48)
  else if 'a' ≤ c ∧ c ≤ 'f' then some (c.toNat - 87)
  else if 'A' ≤ c ∧ c ≤ 'F' then some (c.toNat - 55)
  else none

/-- Parse the body of a JSON string (the opening quote already consumed),
decoding escapes; raw control characters below 0x20 are rejected
(strict mode). `\uXXXX` becomes a single code point (surrogate pairs are
not recombined; beyond what any claim exercises). -/
def parseJStr : Nat → List Char → List Char → Option (String × List Char)
  | 0, _, _ => none
  | _ + 1, _, [] => none
  | fuel + 1, acc, c :: rest =>
    if c = qChar then some (String.mk acc.reverse, rest)
    else if c = bsChar then
      match rest with
      | [] => none
      | e :: rest2 =>
        if e = qChar then parseJStr fuel (qChar :: acc) rest2
        else if e = bsChar then parseJStr fuel (bsChar :: acc) rest2
        else if e = '/' then parseJStr fuel ('/' :: acc) rest2
        else if e = 'b' then parseJStr fuel (Char.ofNat 8 :: acc) rest2
        else if e = 'f' then parseJStr fuel (Char.ofNat 12 :: acc) rest2
        else if e = 'n' then parseJStr fuel (Char.ofNat 10 :: acc) rest2
        else if e = 'r' then parseJStr fuel (Char.ofNat 13 :: acc) rest2
        else if e = 't' then parseJStr fuel (Char.ofNat 9 :: acc) rest2
        else if e = 'u' then
          match rest2 with
          | h1 :: h2 :: h3 :: h4 :: rest3 =>
            match hexVal h1, hexVal h2, hexVal h3, hexVal h4 with
            | some a, some b, some c3, some d =>
              parseJStr fuel (Char.ofNat (a * 4096 + b * 256 + c3 * 16 + d) :: acc) rest3
            | _, _, _, _ => none
          | _ => none
        else none
    else if c.toNat < 32 then none
    else parseJStr fuel (c :: acc) rest

/-- Parse a strict-JSON number starting at `cs` (which begins with `-` or a
digit); returns the lexeme. Leading zeros are rejected as in the stdlib. -/
def parseJNum (cs : List Char) : Option (String × List Char) :=
  let (sign, cs1) :=
    match cs with
    | c :: r => if c = '-' then (['-'], r) else (([] : List Char), cs)
    | [] => (([] : List Char), cs)
  match cs1 with
  | [] => none
  | c :: r =>
    if !c.isDigit then none
    else
      let (intPart, rest1) :=
        if c = '0' then (['0'], r)
        else List.span (fun ch : Char => ch.isDigit) cs1
      let (fracPart, rest2) :=
        match rest1 with
        | '.' :: r2 =>
          let (ds, r3) := List.span (fun ch : Char => ch.isDigit) r2
          if ds.isEmpty then (none, rest1) else (some ('.' :: ds), r3)
        | _ => (none, rest1)
      match fracPart, rest2 with
      | none, '.' :: _ => none
      | _, _ =>
        let (expPart, rest3) :=
          match rest2 with
          | e :: r2 =>
            if e = 'e' ∨ e = 'E' then
              match r2 with
              | s :: r3 =>
                if s = '+' ∨ s = '-' then
                  let (ds, r4) := List.span (fun ch : Char => ch.isDigit) r3
                  if ds.isEmpty then (none, rest2) else (some (e :: s :: ds), r4)
                else
                  let (ds, r4) := List.span (fun ch : Char => ch.isDigit) r2
                  if ds.isEmpty then (none, rest2) else (some (e :: ds), r4)
              | [] => (none, rest2)
            else (none, rest2)
          | [] => (none, rest2)
        let lexeme := sign ++ intPart ++ fracPart.getD [] ++ expPart.getD []
        some (String.mk lexeme, rest3)

/-- Consume an expected literal keyword tail. -/
def expectChars : List Char → List Char → Option (List Char)
  | [], cs => some cs
  | e :: es, c :: cs => if c = e then expectChars es cs else none
  | _ :: _, [] => none

mutual

/-- Model of the stdlib JSON value parser (recursive descent, fuel-indexed;
the fuel supplied at top level is ample for any input of that length). -/
def parseJVal : Nat → List Char → Option (JVal × List Char)
  | 0, _ => none
  | fuel + 1, cs0 =>
    let cs := skipJsonWs cs0
    match cs with
    | [] => none
    | c :: rest =>
      if c = qChar then (parseJStr fuel [] rest).map fun p => (JVal.str p.1, p.2)
      else if c = lcbChar then parseJObj fuel rest
      else if c = '[' then (parseJArr fuel rest).map fun p => (JVal.arr p.1, p.2)
      else if c = 't' then (expectChars ['r', 'u', 'e'] rest).map fun r => (JVal.bool true, r)
      else if c = 'f' then (expectChars ['a', 'l', 's', 'e'] rest).map fun r => (JVal.bool false, r)
      else if c = 'n' then (expectChars ['u', 'l', 'l'] rest).map fun r => (JVal.null, r)
      else if c = 'N' then (expectChars ['a', 'N'] rest).map fun r => (JVal.num "NaN", r)
      else if c = 'I' then
        (expectChars ['n', 'f', 'i', 'n', 'i', 't', 'y'] rest).map fun r => (JVal.num "Infinity", r)
      else if c = '-' then
        match rest with
        | 'I' :: r2 =>
          (expectChars ['n', 'f', 'i', 'n', 'i', 't', 'y'] r2).map fun r => (JVal.num "-Infinity", r)
        | _ => (parseJNum cs).map fun p => (JVal.num p.1, p.2)
      else if c.isDigit then (parseJNum cs).map fun p => (JVal.num p.1, p.2)
      else none

/-- Array parser, positioned just after `[`. -/
def parseJArr : Nat → List Char → Option (List JVal × List Char)
  | 0, _ => none
  | fuel + 1, cs0 =>
    let cs := skipJsonWs cs0
    match cs with
    | c :: rest =>
      if c = ']' then some ([], rest)
      else
        match parseJVal fuel cs with
        | some (v, r) =>
          match parseJArrRest fuel r with
          | some (vs, r2) => some (v :: vs, r2)
          | none => none
        | none => none
    | [] => none

def parseJArrRest : Nat → List Char → Option (List JVal × List Char)
  | 0, _ => none
  | fuel + 1, cs0 =>
    let cs := skipJsonWs cs0
    match cs with
    | c :: rest =>
      if c = ']' then some ([], rest)
      else if c = ',' then
        match parseJVal fuel rest with
        | some (v, r) =>
          match parseJArrRest fuel r with
          | some (vs, r2) => some (v :: vs, r2)
          | none => none
        | none => none
      else none
    | [] => none

/-- Object parser, positioned just after the opening brace. -/
def parseJObj : Nat → List Char → Option (JVal × List Char)
  | 0, _ => none
  | fuel + 1, cs0 =>
    let cs := skipJsonWs cs0
    match cs with
    | c :: rest =>
      if c = rcbChar then some (JVal.obj [], rest)
      else if c = qChar then
        match parseJStr fuel [] rest with
        | some (k, r) =>
          match parseJMember fuel k r with
          | some (kv, r2) =>
            match parseJObjRest fuel r2 with
            | some (kvs, r3) => some (JVal.obj (kv :: kvs), r3)
            | none => none
          | none => none
        | none => none
      else none
    | [] => none

def parseJObjRest : Nat → List Char → Option (List (String × JVal) × List Char)
  | 0, _ => none
  | fuel + 1, cs0 =>
    let cs := skipJsonWs cs0
    match cs with
    | c :: rest =>
      if c = rcbChar then some ([], rest)
      else if c = ',' then
        let cs2 := skipJsonWs rest
        match cs2 with
        | c2 :: rest2 =>
          if c2 = qChar then
            match parseJStr fuel [] rest2 with
            | some (k, r) =>
              match parseJMember fuel k r with
              | some (kv, r2) =>
                match parseJObjRest fuel r2 with
                | some (kvs, r3) => some (kv :: kvs, r3)
                | none => none
              | none => none
            | none => none
          else none
        | [] => none
      else none
    | [] => none

/-- After a member key: expect `:` then the value. -/
def parseJMember : Nat → String → List Char → Option ((String × JVal) × List Char)
  | 0, _, _ => none
  | fuel + 1, k, cs0 =>
    let cs := skipJsonWs cs0
    match cs with
    | c :: rest =>
      if c = ':' then
        match parseJVal fuel rest with
        | some (v, r) => some ((k, v), r)
        | none => none
      else none
    | [] => none

end

/-- Model of Python `json.loads`: parse one value, then require only
trailing whitespace (otherwise "Extra data" is raised → `none`). -/
def jsonLoads (s : String) : Option JVal :=
  match parseJVal (2 * s.length + 4) s.data with
  | some (v, rest) => if (skipJsonWs rest).isEmpty then some v else none
  | none => none

/-- Python dict lookup on a parsed JSON object (`parsed.get(k)`): duplicate
keys in the JSON text overwrite, so the last occurrence wins. -/
def jsonGet (fields : List (String × JVal)) (k : String) : Option JVal :=
  (fields.reverse.find? (fun kv => kv.1 = k)).map (·.2)

/-- Is a JSON number lexeme numerically zero (for Python truthiness)?
Strips the sign and the exponent, then checks the mantissa is all
zeros/dot. `NaN`/`Infinity` contain other characters, hence nonzero. -/
def numLexemeIsZero (lx : String) : Bool :=
  let body :=
    match lx.data with
    | '-' :: r => r
    | r => r
  let mantissa := body.takeWhile (fun c => c ≠ 'e' ∧ c ≠ 'E')
  mantissa.all (fun c => c = '0' ∨ c = '.')

/-- Python truthiness of a dict value that is either absent / `None`
(`none`) or a parsed JSON value. -/
def pyTruthy : Option JVal → Bool
  | none => false
  | some JVal.null => false
  | some (JVal.bool b) => b
  | some (JVal.str s) => s ≠ ""
  | some (JVal.num lx) => !numLexemeIsZero lx
  | some (JVal.arr l) => !l.isEmpty
  | some (JVal.obj l) => !l.isEmpty


/-! ### Schemas (`schemas.py`)

Pydantic `Optional` fields become `Option`; `int` ports are `Nat`
(the probed port table is non-negative throughout). -/

structure AWSInfo where
  prefix_ : Option String  -- source field name: prefix (a Lean keyword)
  region : Option String
  service : Option String
  service_category : Option String
  network_border_group : Option String
  possible_services : Option (List String)
deriving DecidableEq

structure GCPInfo where
  prefix_ : Option String  -- source field name: prefix (a Lean keyword)
  region : Option String
  service : Option String
  service_category : Option String
  scope : Option String
  possible_services : Option (List String)
deriving DecidableEq

structure Metadata where
  location : Option String
  country : Option String
  provider : Option String
  service_category : Option String
  aws : Option AWSInfo
  gcp : Option GCPInfo
deriving DecidableEq

structure AccessibilityProbe where
  port : Nat
  service : String
  status : String
deriving DecidableEq

structure TargetScanResult where
  target : String
  ip_address : String
  availability : Bool
  metadata : Metadata
  publicly_exposed : Bool
  open_ports : List Nat
  accessibility_tests : List AccessibilityProbe
  testing_techniques : List String
  risk_level : String
  risk_summary : String
  recommendation : Option String
deriving DecidableEq

/-! ### Gemini client (`gemini_client.py`)

The dict returned by `generate_risk_assessment` always carries the keys
`risk_level`, `risk_summary`, `recommendation`; each value is either
Python `None` (`none`) or a JSON-derived value (`some (JVal …)`).
The remote `generate_content` call is a collaborator: its outcome
(a response object, or a raised exception's message) is a parameter. -/

structure AiRisk where
  risk_level : Option JVal
  risk_summary : Option JVal
  recommendation : Option JVal

/-- Python `v == "t"` where `v` is a dict value (`None` or a JSON value):
true only for the equal string. -/
def jvalEqStr : Option JVal → String → Bool
  | some (JVal.str s), t => s = t
  | _, _ => false


/-- The fixed message `_call_api` returns when no API key is configured. -/
def notConfiguredMessage : String :=
  "Gemini API key not configured. Set the GEMINI_API_KEY environment variable to enable AI-driven audit responses."

/-- A `generate_content` response: `text` attribute plus candidates, each
candidate being `none` (content `None`) or the `text` of each part. -/
structure GenResponse where
  text : Option String
  candidates : List (Option (List (Option String)))

/-- Outcome of the remote `generate_content` call (collaborator): either a
response object or a raised exception carrying its `str(exc)`. -/
inductive GenOutcome where
  | resp (r : GenResponse)
  | raise (excMsg : String)

/-- The candidate-walking tail of `_call_api` (reached when
`response.text` is falsy). -/
def call_api_candidates (r : GenResponse) : String × Bool :=
  match r.candidates with
  | [] => ("Gemini API returned no candidates in the response.", false)
  | first_candidate :: _ =>
    let parts := match first_candidate with
      | some ps => ps
      | none => []
    if parts.isEmpty then ("Gemini response did not contain any text parts.", false)
    else
      let combined :=
        pyStrip (String.intercalate " "
          (parts.filterMap (fun t =>
            match t with
            | some s => if s ≠ "" then some s else none
            | none => none)))
      (if combined ≠ "" then combined else "Gemini response missing textual content.", false)

/-- `GeminiClient._call_api`: returns `(response_text, is_rate_limited)`.
`hasClient` is false iff no API key was configured (then `self.client`
stayed `None`). -/
def call_api (hasClient : Bool) (outcome : GenOutcome) : String × Bool :=
  if !hasClient then (notConfiguredMessage, false)
  else
    match outcome with
    | GenOutcome.raise exc =>
      let error_str := pyLower exc
      if containsSubstr error_str "resource_exhausted" || containsSubstr error_str "429"
          || containsSubstr error_str "rate_limit" then
        ("Gemini API rate limit exceeded: " ++ exc, true)
      else
        ("Gemini API call failed: " ++ exc, false)
    | GenOutcome.resp r =>
      match r.text with
      | some t =>
        if t ≠ "" then (t, false)
        else call_api_candidates r
      | none => call_api_candidates r

/-- `GeminiClient.generate_risk_assessment`. The returned dict always has
the three keys; values are `None` or JSON-derived. When `json.loads`
succeeds on a non-dict value, `parsed.get` raises `AttributeError`,
which propagates to the caller (`Except.error`). -/
def generate_risk_assessment (hasClient : Bool) (outcome : GenOutcome) :
    Except String AiRisk :=
  let rawPair := call_api hasClient outcome
  let raw_response := rawPair.1
  let is_rate_limited := rawPair.2
  if is_rate_limited then
    Except.ok ⟨none, some (JVal.str "rate_limited"), none⟩
  else
    match jsonLoads raw_response with
    | none =>
      Except.ok ⟨some (JVal.str "unknown"), some (JVal.str (pyStrip raw_response)), none⟩
    | some (JVal.obj fields) =>
      let rl := jsonGet fields "risk_level"
      let rs := jsonGet fields "risk_summary"
      let rc := jsonGet fields "recommendation"
      Except.ok
        ⟨ if pyTruthy rl then rl else some (JVal.str "unknown"),
          if pyTruthy rs then rs else jsonGet fields "summary",
          if pyTruthy rc then rc else jsonGet fields "recommendations"⟩
    | some _ => Except.error "AttributeError: object has no attribute get"

/-! ### Risk engine (`scanner.py`, `interpret_risk`)

`interpret_risk` consumes only `open_ports` and `metadata` from the
payload dict, so the payload model carries exactly those. The AI
collaborator call `generate_risk_assessment` appears as an `Except`
parameter (error = any exception raised during the attempt). The
result triple holds dict-style values (`None` or JSON-derived);
every deterministic branch produces plain strings. -/

structure ScanPayload where
  open_ports : List Nat
  metadata : Option Metadata
deriving DecidableEq

def HIGH_RISK_PORTS : List Nat := [22, 3306, 3389, 5900, 2375]

abbrev RiskOut := Option JVal × Option JVal × Option JVal

def jstr (s : String) : Option JVal := some (JVal.str s)

/-- Python `sorted(HIGH_RISK_PORTS.intersection(open_ports))`: the distinct
common elements in ascending order. -/
def sortedHighRisk (open_ports : List Nat) : List Nat :=
  ((open_ports.filter (fun p => p ∈ HIGH_RISK_PORTS)).dedup).insertionSort (· ≤ ·)

/-- The GCP arm of the high-risk branch (lines 180-206): Python evaluates
`"…" in gcp_service` first, raising `TypeError` when the service is
`None` (modelled as `Except.error`). -/
def gcp_high_branch (gcp_service_opt : Option String) (high_risk : List Nat) :
    Except String RiskOut :=
  match gcp_service_opt with
  | none => Except.error "TypeError: argument of type NoneType is not iterable"
  | some gcp_service =>
    if containsSubstr gcp_service "Google Cloud Storage" ∨ gcp_service = "Google Cloud" then
      Except.ok (jstr "high",
        jstr ("GCP Cloud Storage publicly accessible on ports " ++ pyIntListRepr high_risk
          ++ " - potential data exposure."),
        jstr "Review Cloud Storage IAM policies, enable uniform bucket-level access, and restrict public access.")
    else if containsSubstr gcp_service "Google Compute Engine" ∨ gcp_service = "Google Cloud" then
      Except.ok (jstr "high",
        jstr ("GCP Compute Engine instance with critical ports " ++ pyIntListRepr high_risk
          ++ " exposed."),
        jstr "Use firewall rules, IAP (Identity-Aware Proxy), and VPC Service Controls for access control.")
    else if containsSubstr gcp_service "Google Cloud SQL" then
      Except.ok (jstr "high",
        jstr ("GCP Cloud SQL database with critical ports " ++ pyIntListRepr high_risk
          ++ " exposed."),
        jstr "Use authorized networks, Cloud SQL Proxy, and private IP connectivity.")
    else
      Except.ok (jstr "high",
        jstr ("GCP " ++ gcp_service ++ " with critical ports " ++ pyIntListRepr high_risk
          ++ " exposed."),
        jstr "Review firewall rules, enable Cloud Armor, and implement IAP where applicable.")

/-- The GCP arm of the low-risk tail (lines 240-245), same `TypeError`
modelling; falls through to the generic limited-exposure result. -/
def gcp_low_branch (gcp_service_opt : Option String) : Except String RiskOut :=
  match gcp_service_opt with
  | none => Except.error "TypeError: argument of type NoneType is not iterable"
  | some gcp_service =>
    if containsSubstr gcp_service "Google Cloud Storage" ∨ containsSubstr gcp_service "Google Cloud CDN" then
      Except.ok (jstr "low",
        jstr (gcp_service ++ " endpoint detected - standard GCP exposure."), none)
    else
      Except.ok (jstr "low", jstr "Limited exposure detected.", none)

/-- The deterministic fallback rules of `interpret_risk` (lines 156-245). -/
def deterministic_risk (scan : ScanPayload) : Except String RiskOut :=
  let open_ports := scan.open_ports
  let provider := scan.metadata.bind Metadata.provider
  let aws_info := scan.metadata.bind Metadata.aws
  let gcp_info := scan.metadata.bind Metadata.gcp
  let high_risk := sortedHighRisk open_ports
  if !high_risk.isEmpty then
    if provider = some "AMAZON" ∧ aws_info.isSome then
      let aws_service := aws_info.bind AWSInfo.service
      if aws_service = some "S3" then
        Except.ok (jstr "high",
          jstr ("S3 bucket publicly accessible on ports " ++ pyIntListRepr high_risk
            ++ " - potential data exposure."),
          jstr "Review S3 bucket policies, enable access logging, and restrict public access.")
      else if aws_service = some "RDS" ∨ aws_service = some "EC2" then
        Except.ok (jstr "high",
          jstr (pyOptStr aws_service ++ " instance with critical ports "
            ++ pyIntListRepr high_risk ++ " exposed."),
          jstr "Use security groups, NACLs, and VPN/private links for access control.")
      else
        Except.ok (jstr "high",
          jstr ("AWS " ++ pyOptStr aws_service ++ " with critical ports "
            ++ pyIntListRepr high_risk ++ " exposed."),
          jstr "Review security group rules and implement AWS WAF/Shields where applicable.")
    else if provider = some "GOOGLE" ∧ gcp_info.isSome then
      gcp_high_branch (gcp_info.bind GCPInfo.service) high_risk
    else
      Except.ok (jstr "high",
        jstr ("Critical services exposed on ports " ++ pyIntListRepr high_risk ++ "."),
        jstr "Restrict access, close management ports, and enforce firewall rules.")
  else if open_ports.length > 2 then
    if provider = some "AMAZON" then
      Except.ok (jstr "medium",
        jstr "Multiple AWS services exposed - review security group configurations.",
        jstr "Implement least-privilege security groups, enable VPC flow logs, and use AWS WAF.")
    else if provider = some "GOOGLE" then
      Except.ok (jstr "medium",
        jstr "Multiple GCP services exposed - review firewall configurations.",
        jstr "Implement hierarchical firewall policies, enable VPC flow logs, and use Cloud Armor.")
    else
      Except.ok (jstr "medium",
        jstr "Multiple services exposed on the public internet.",
        jstr "Harden exposed services, enable TLS, and whitelist trusted sources.")
  else
    let aws_service := aws_info.bind AWSInfo.service
    if provider = some "AMAZON" ∧ aws_info.isSome
        ∧ (aws_service = some "S3" ∨ aws_service = some "CLOUDFRONT") then
      Except.ok (jstr "low",
        jstr (pyOptStr aws_service ++ " endpoint detected - standard AWS exposure."), none)
    else if provider = some "GOOGLE" ∧ gcp_info.isSome then
      gcp_low_branch (gcp_info.bind GCPInfo.service)
    else
      Except.ok (jstr "low", jstr "Limited exposure detected.", none)

/-- Lines 130-154 of `interpret_risk`: the Gemini attempt. `none` means
fall through to the deterministic rules (rate-limit signal, mere
exception, or an `unknown`/empty response); `some` is an early return.
The dict produced by `generate_risk_assessment` always carries all
three keys, so `ai_risk.get(k, default)` is the stored value. -/
def ai_phase (ai : Except String AiRisk) : Option RiskOut :=
  match ai with
  | Except.error _ => none
  | Except.ok r =>
    if r.risk_level.isNone ∧ jvalEqStr r.risk_summary "rate_limited" then
      none
    else if !(jvalEqStr r.risk_level "unknown") || pyTruthy r.risk_summary then
      some (r.risk_level, r.risk_summary, r.recommendation)
    else
      none

/-- `interpret_risk(scan_result, gemini_summary_enabled)`, with the AI
collaborator's outcome passed explicitly. -/
def interpret_risk (scan : ScanPayload) (gemini_summary_enabled : Bool)
    (ai : Except String AiRisk) : Except String RiskOut :=
  if gemini_summary_enabled then
    match ai_phase ai with
    | some triple => Except.ok triple
    | none => deterministic_risk scan
  else
    deterministic_risk scan

/-! ### Per-target pipeline wrapper (`scanner.py`, `_build_error_result` /
`_scan_target`)

`build_scan_result` is pure orchestration of blocking I/O; its outcome
for a given target is passed in as an `Except` (error = the `str(exc)`
of whatever the pipeline raised). -/

def build_error_result (raw_target : String) (excMsg : String) : TargetScanResult :=
  { target := raw_target
    ip_address := "unknown"
    availability := false
    metadata :=
      { location := none, country := none, provider := none,
        service_category := none, aws := none, gcp := none }
    publicly_exposed := false
    open_ports := []
    accessibility_tests := []
    testing_techniques := []
    risk_level := "unknown"
    risk_summary := excMsg
    recommendation := none }

def scan_target (raw_target : String) (pipeline : Except String TargetScanResult) :
    TargetScanResult × String :=
  match pipeline with
  | Except.ok result => (result, "completed")
  | Except.error exc => (build_error_result raw_target exc, "error")

/-! ### Job orchestrator (`scanner.py`, `queue_scan` / `scan_worker`)

A job record mirrors the dict built in `queue_scan` (timestamps are
abstract `Nat` instants). The worker's concurrency is modelled by the
completion order of the inner-pool futures: a list of
`(original index, result, per-unit status tag)` triples, folded in
arrival order. Each fold step performs exactly the mutation done under
`LOCK` in lines 466-483; `ordered_results` (a dict read back in sorted
key order) is modelled as a key-sorted association list. -/

structure ScanJob where
  token : String
  total_targets : Nat
  completed_targets : Nat
  status : String
  mode : String
  started_at : Option Nat
  finished_at : Option Nat
  results : List TargetScanResult
deriving DecidableEq

/-- `queue_scan` (minus the registry insertion and pool submission, which
only publish this record): the job record created at submission. -/
def queue_scan (token : String) (targets : List String) (ai_enabled : Bool)
    (now : Nat) : ScanJob :=
  { token := token
    total_targets := targets.length
    completed_targets := 0
    status := "queued"
    mode := if ai_enabled then "ai" else "standard"
    started_at := some now
    finished_at := none
    results := [] }

/-- One per-target completion as observed by `as_completed`: the target's
original submission index, the `TargetScanResult`, and the per-unit
status tag (`"completed"`, `"error"` from `_scan_target`, or `"failed"`
when `future.result()` itself raised). -/
abbrev Completion := Nat × TargetScanResult × String

/-- Insert into a key-sorted association list, replacing an existing key:
the model of `ordered_results[index] = result` followed by reading the
dict back in sorted key order. -/
def insertSorted : List (Nat × TargetScanResult) → Nat → TargetScanResult →
    List (Nat × TargetScanResult)
  | [], i, r => [(i, r)]
  | (j, b) :: t, i, r =>
    if i < j then (i, r) :: (j, b) :: t
    else if i = j then (i, r) :: t
    else (j, b) :: insertSorted t i r

/-- Worker-loop state: the shared job record, the `ordered_results` dict,
the pending `snapshot_to_persist`, and a count of how many times the
finalization branch has run (for the exactly-once property). -/
structure WorkerState where
  job : ScanJob
  ordered : List (Nat × TargetScanResult)
  snapshot : Option ScanJob
  finalizeCount : Nat

/-- The body of the `for future in as_completed(...)` loop (lines 466-483),
executed for one completion at time instant `t`. -/
def scanStep (t : Nat) (st : WorkerState) (c : Completion) : WorkerState :=
  let ordered := insertSorted st.ordered c.1 c.2.1
  let sorted_results := ordered.map Prod.snd
  let job1 : ScanJob :=
    { st.job with
      results := sorted_results
      completed_targets := sorted_results.length
      status := c.2.2 }
  if job1.total_targets ≤ job1.completed_targets then
    let job2 : ScanJob := { job1 with status := "complete", finished_at := some t }
    { job := job2, ordered := ordered, snapshot := some job2,
      finalizeCount := st.finalizeCount + 1 }
  else
    { job := job1, ordered := ordered, snapshot := st.snapshot,
      finalizeCount := st.finalizeCount }

/-- `scan_worker`: the empty-targets early return (lines 445-454) or the
inner-pool loop folded over the completion order. The returned state's
`snapshot` is what gets handed to `persist_scan_job` (persistence happens
iff it is `some`). -/
def scan_worker (t : Nat) (job : ScanJob) (targets : List String)
    (completions : List Completion) : WorkerState :=
  if targets.isEmpty then
    let job2 : ScanJob := { job with status := "completed", finished_at := some t }
    { job := job2, ordered := [], snapshot := some job2, finalizeCount := 0 }
  else
    completions.foldl (scanStep t)
      { job := job, ordered := [], snapshot := none, finalizeCount := 0 }

/-- The worker state after the first `k` completions have been processed. -/
def scanWorkerAfter (t : Nat) (job : ScanJob) (completions : List Completion)
    (k : Nat) : WorkerState :=
  (completions.take k).foldl (scanStep t)
    { job := job, ordered := [], snapshot := none, finalizeCount := 0 }

/-! ### Provider attribution (`aws_service_detector.py` /
`gcp_service_detector.py`)

CIDR handling models `ipaddress.ip_network(s, strict=False)` /
`int(ipaddress.ip_address(ip))` restricted to IPv4 — the address family
every claim exercises; an IPv6 prefix string parses to `none` and is
therefore skipped like an invalid entry. A prefix entry is the raw dict
from the provider JSON (all keys optional). -/

/-- Split a character list on a single separator character (the model of
Python `str.split(sep)` / `String.splitOn` for the 1-character separators
used in CIDR parsing). -/
def splitOnChar (sep : Char) : List Char → List (List Char)
  | [] => [[]]
  | c :: rest =>
    let r := splitOnChar sep rest
    if c = sep then [] :: r
    else
      match r with
      | h :: t => (c :: h) :: t
      | [] => [[c]]

/-- Decimal value of an all-digit character list. -/
def digitsToNat (cs : List Char) : Nat :=
  cs.foldl (fun acc c => acc * 10 + (c.toNat - 48)) 0

/-- One dotted-quad octet: 1-3 digits, no leading zero, value ≤ 255. -/
def parseOctet (cs : List Char) : Option Nat :=
  if cs.length = 0 ∨ cs.length > 3 then none
  else if !cs.all Char.isDigit then none
  else if cs.length > 1 ∧ cs.head? = some '0' then none
  else
    let v := digitsToNat cs
    if v ≤ 255 then some v else none

/-- `int(ipaddress.ip_address(s))` for an IPv4 dotted quad. -/
def ipv4AddrToInt (cs : List Char) : Option Nat :=
  match (splitOnChar '.' cs).mapM parseOctet with
  | some [a, b, c, d] => some (a * 16777216 + b * 65536 + c * 256 + d)
  | _ => none

/-- `ipaddress.ip_network(s, strict=False)` for IPv4: returns the
`(network_address, broadcast_address)` integer pair; host bits are
masked off (strict=False). A bare address is a /32. -/
def ipNetworkV4 (s : String) : Option (Nat × Nat) :=
  match splitOnChar '/' s.data with
  | [addr] => (ipv4AddrToInt addr).map (fun a => (a, a))
  | [addr, lenStr] =>
    match ipv4AddrToInt addr with
    | none => none
    | some a =>
      if lenStr.isEmpty ∨ !lenStr.all Char.isDigit then none
      else
        let v := digitsToNat lenStr
        if v ≤ 32 then
          let hostSize := 2 ^ (32 - v)
          let network := a - a % hostSize
          some (network, network + hostSize - 1)
        else none
  | _ => none

/-- Does one prefix *string* value match the IP integer? Mirrors the shared
per-entry body: a missing or falsy value is skipped, a `ValueError` from
CIDR parsing is skipped, and the range test is inclusive of the network
and broadcast addresses. -/
def cidr_value_matches (ip_int : Nat) (v : Option String) : Bool :=
  match v with
  | none => false
  | some s =>
    if s = "" then false
    else
      match ipNetworkV4 s with
      | none => false
      | some (lo, hi) => decide (lo ≤ ip_int) && decide (ip_int ≤ hi)

structure AwsPrefixEntry where
  ip_prefix : Option String
  region : Option String
  service : Option String
  network_border_group : Option String
deriving DecidableEq

def aws_prefix_matches (ip_int : Nat) (e : AwsPrefixEntry) : Bool :=
  cidr_value_matches ip_int ( AwsPrefixEntry.ip_prefix e)

/-- `_find_all_matching_prefixes` (AWS): walk *every* entry, collecting all
matches in table order; `ip_int` is `_ip_to_integer(ip)`. -/
def find_all_matching_prefixes (ip_int : Nat) :
    List AwsPrefixEntry → List AwsPrefixEntry
  | [] => []
  | e :: rest =>
    if aws_prefix_matches ip_int e then e :: find_all_matching_prefixes ip_int rest
    else find_all_matching_prefixes ip_int rest

/-- The `SERVICE_PRIORITY` dict of `_find_best_matching_prefix`. -/
def SERVICE_PRIORITY : List (String × Int) :=
  [("S3", 10), ("EC2", 9), ("RDS", 8), ("LAMBDA", 7), ("CLOUDFRONT", 6),
   ("API_GATEWAY", 5), ("ROUTE53", 4), ("DYNAMODB", 3), ("ECS", 2), ("EKS", 1),
   ("AMAZON", -1)]

/-- `get_priority`: `SERVICE_PRIORITY.get(prefix.get("service", "AMAZON"), 0)`. -/
def get_priority (e : AwsPrefixEntry) : Int :=
  let service := ( AwsPrefixEntry.service e).getD "AMAZON"
  ((SERVICE_PRIORITY.find? (fun kv => kv.1 = service)).map Prod.snd).getD 0

/-- Python `max(xs, key=f)` on a non-empty list: the *first* element
attaining the maximal key wins (later elements replace only when
strictly greater). -/
def pyMaxBy (key : AwsPrefixEntry → Int) (x : AwsPrefixEntry)
    (xs : List AwsPrefixEntry) : AwsPrefixEntry :=
  xs.foldl (fun best y => if key best < key y then y else best) x

/-- `_find_best_matching_prefix` (AWS). -/
def find_best_matching_prefix (ip_int : Nat) (prefixes : List AwsPrefixEntry) :
    Option AwsPrefixEntry :=
  match find_all_matching_prefixes ip_int prefixes with
  | [] => none
  | m :: ms => some (pyMaxBy get_priority m ms)

structure GcpPrefixEntry where
  ipv4Prefix : Option String
  ipv6Prefix : Option String
  service : Option String
  scope : Option String
deriving DecidableEq

/-- The per-entry inner loop of `_find_matching_gcp_prefix`: the entry
matches when either prefix-field name matches. -/
def gcp_prefix_matches (ip_int : Nat) (e : GcpPrefixEntry) : Bool :=
  cidr_value_matches ip_int ( GcpPrefixEntry.ipv4Prefix e)
    || cidr_value_matches ip_int ( GcpPrefixEntry.ipv6Prefix e)

/-- `_find_matching_gcp_prefix` (GCP): returns on the *first* matching
entry in table order. -/
def find_matching_gcp_prefix (ip_int : Nat) :
    List GcpPrefixEntry → Option GcpPrefixEntry
  | [] => none
  | e :: rest =>
    if gcp_prefix_matches ip_int e then some e
    else find_matching_gcp_prefix ip_int rest

/-! ### Range registry caches (`get_aws_ip_ranges` / `get_gcp_ip_ranges`)

The module-level cache dict is state threaded explicitly (`none` =
still empty); `cached_at` is an abstract instant. The remote fetch is
a collaborator whose outcome is an `Except` parameter (error = the
network/parse exception's message). Each function returns the value
produced for the caller (or the propagated error) *and* the cache
state afterwards. -/

def CACHE_EXPIRY_HOURS : Nat := 6

structure AwsIpv6PrefixEntry where
  ipv6_prefix : Option String
  region : Option String
  service : Option String
  network_border_group : Option String
deriving DecidableEq

structure AwsRanges where
  syncToken : Option String
  createDate : Option String
  prefixes : List AwsPrefixEntry
  ipv6_prefixes : List AwsIpv6PrefixEntry
deriving DecidableEq

structure AwsCacheData where
  syncToken : Option String
  createDate : Option String
  prefixes : List AwsPrefixEntry
  ipv6_prefixes : List AwsIpv6PrefixEntry
  cached_at : Nat
deriving DecidableEq

/-- `_is_cache_valid` (AWS): a populated cache always carries `cached_at`,
so the remaining test is the 6-hour TTL. -/
def is_aws_cache_valid (cache : Option AwsCacheData) (now : Nat) : Bool :=
  match cache with
  | none => false
  | some c => now - c.cached_at < CACHE_EXPIRY_HOURS * 3600

/-- `_fetch_aws_ip_ranges`: on success the cache is overwritten with the
fresh data stamped `now` and the data returned; an exception leaves the
cache untouched and propagates. -/
def fetch_aws_ip_ranges (cache : Option AwsCacheData) (now : Nat)
    (fetch : Except String AwsRanges) :
    Except String AwsRanges × Option AwsCacheData :=
  match fetch with
  | Except.error e => (Except.error e, cache)
  | Except.ok d =>
    (Except.ok d, some ⟨d.syncToken, d.createDate, d.prefixes, d.ipv6_prefixes, now⟩)

/-- `get_aws_ip_ranges`: serve the cache only while valid; otherwise
(stale *or* empty) fetch fresh data. -/
def get_aws_ip_ranges (cache : Option AwsCacheData) (now : Nat)
    (fetch : Except String AwsRanges) :
    Except String AwsRanges × Option AwsCacheData :=
  if is_aws_cache_valid cache now then
    match cache with
    | some c => (Except.ok ⟨c.syncToken, c.createDate, c.prefixes, c.ipv6_prefixes⟩, some c)
    | none => fetch_aws_ip_ranges cache now fetch
  else
    fetch_aws_ip_ranges cache now fetch

structure GcpRanges where
  syncToken : Option String
  creationTime : Option String
  prefixes : List GcpPrefixEntry
deriving DecidableEq

structure GcpCacheData where
  syncToken : Option String
  creationTime : Option String
  prefixes : List GcpPrefixEntry
  cached_at : Nat
deriving DecidableEq

def is_gcp_cache_valid (cache : Option GcpCacheData) (now : Nat) : Bool :=
  match cache with
  | none => false
  | some c => now - c.cached_at < CACHE_EXPIRY_HOURS * 3600

def fetch_gcp_ip_ranges (cache : Option GcpCacheData) (now : Nat)
    (fetch : Except String GcpRanges) :
    Except String GcpRanges × Option GcpCacheData :=
  match fetch with
  | Except.error e => (Except.error e, cache)
  | Except.ok d =>
    (Except.ok d, some ⟨d.syncToken, d.creationTime, d.prefixes, now⟩)

def get_gcp_ip_ranges (cache : Option GcpCacheData) (now : Nat)
    (fetch : Except String GcpRanges) :
    Except String GcpRanges × Option GcpCacheData :=
  if is_gcp_cache_valid cache now then
    match cache with
    | some c => (Except.ok ⟨c.syncToken, c.creationTime, c.prefixes⟩, some c)
    | none => fetch_gcp_ip_ranges cache now fetch
  else
    fetch_gcp_ip_ranges cache now fetch

/-- Reachability side condition for the deterministic risk rules: every
`GCPInfo` the pipeline builds carries a `service` string
(`matching_prefix.get("service", "Google Cloud")` always yields one), so
the `TypeError` branches are dead in real flows. -/
def gcpServicePresent (scan : ScanPayload) : Bool :=
  match scan.metadata.bind Metadata.gcp with
  | none => true
  | some gi => ( GCPInfo.service gi).isSome

/-- The "standard exposure" condition of deterministic rules 3
(AWS S3/CLOUDFRONT, or GCP Cloud Storage / Cloud CDN), read off the
low-risk branches of `interpret_risk`. -/
def standardExposure (scan : ScanPayload) : Bool :=
  let provider := scan.metadata.bind Metadata.provider
  let aws_info := scan.metadata.bind Metadata.aws
  let gcp_info := scan.metadata.bind Metadata.gcp
  let aws_service := aws_info.bind AWSInfo.service
  (decide (provider = some "AMAZON") && aws_info.isSome
    && (decide (aws_service = some "S3") || decide (aws_service = some "CLOUDFRONT")))
  || (decide (provider = some "GOOGLE") && gcp_info.isSome
    && (match gcp_info.bind GCPInfo.service with
        | some svc => containsSubstr svc "Google Cloud Storage"
            || containsSubstr svc "Google Cloud CDN"
        | none => false))

/-- Concrete overlapping-table entries used by the range-matching claims:
a generic AMAZON /8 and a more specific S3 /16, both containing 10.1.2.3
(integer 167838211). -/
def awsAmazonExample : AwsPrefixEntry :=
  { ip_prefix := some "10.0.0.0/8", region := some "us-east-1",
    service := some "AMAZON", network_border_group := none }

def awsS3Example : AwsPrefixEntry :=
  { ip_prefix := some "10.1.0.0/16", region := some "us-east-1",
    service := some "S3", network_border_group := none }

/-! ### Lemmas about the worker fold -/

def pairOf (c : Completion) : Nat × TargetScanResult := (c.1, c.2.1)

def orderedInsert (m : List (Nat × TargetScanResult)) (c : Completion) :
    List (Nat × TargetScanResult) :=
  insertSorted m c.1 c.2.1

lemma insertSorted_fst_mem {m : List (Nat × TargetScanResult)} {i x : Nat}
    {r : TargetScanResult} (h : x ∈ (insertSorted m i r).map Prod.fst) :
    x = i ∨ x ∈ m.map Prod.fst := by
  induction m with
  | nil =>
    simp [insertSorted] at h
    exact Or.inl h
  | cons hd tl ih =>
    obtain ⟨j, b⟩ := hd
    simp only [insertSorted] at h
    by_cases h1 : i < j
    · rw [if_pos h1] at h
      simp only [List.map_cons, List.mem_cons] at h ⊢
      tauto
    · rw [if_neg h1] at h
      by_cases h2 : i = j
      · rw [if_pos h2] at h
        simp only [List.map_cons, List.mem_cons] at h ⊢
        tauto
      · rw [if_neg h2] at h
        simp only [List.map_cons, List.mem_cons] at h ⊢
        rcases h with h | h
        · exact Or.inr (Or.inl h)
        · rcases ih h with h3 | h3
          · exact Or.inl h3
          · exact Or.inr (Or.inr h3)

lemma insertSorted_perm {m : List (Nat × TargetScanResult)} {i : Nat}
    {r : TargetScanResult} (h : i ∉ m.map Prod.fst) :
    List.Perm (insertSorted m i r) ((i, r) :: m) := by
  induction m with
  | nil => simp [insertSorted]
  | cons hd tl ih =>
    obtain ⟨j, b⟩ := hd
    simp only [List.map_cons, List.mem_cons] at h
    push_neg at h
    by_cases h1 : i < j
    · simp [insertSorted, h1]
    · have h2 : ¬i = j := h.1
      simp only [insertSorted, if_neg h1, if_neg h2]
      exact (List.Perm.cons _ (ih h.2)).trans (List.Perm.swap _ _ _)

lemma insertSorted_pairwise {m : List (Nat × TargetScanResult)} {i : Nat}
    {r : TargetScanResult}
    (h : m.Pairwise (fun p q => p.1 < q.1)) :
    (insertSorted m i r).Pairwise (fun p q => p.1 < q.1) := by
  induction m with
  | nil => simp [insertSorted]
  | cons hd tl ih =>
    obtain ⟨j, b⟩ := hd
    rw [List.pairwise_cons] at h
    by_cases h1 : i < j
    · simp only [insertSorted, if_pos h1]
      rw [List.pairwise_cons]
      refine ⟨?_, List.pairwise_cons.mpr h⟩
      intro q hq
      rcases List.mem_cons.mp hq with hq | hq
      · simp [hq]; exact h1
      · exact lt_trans h1 (h.1 q hq)
    · by_cases h2 : i = j
      · simp only [insertSorted, if_neg h1, if_pos h2]
        rw [List.pairwise_cons]
        subst h2
        exact h
      · simp only [insertSorted, if_neg h1, if_neg h2]
        rw [List.pairwise_cons]
        refine ⟨?_, ih h.2⟩
        intro q hq
        have hq2 : q.1 = i ∨ q.1 ∈ tl.map Prod.fst :=
          insertSorted_fst_mem (List.mem_map_of_mem Prod.fst hq)
        have hij : j < i := by omega
        rcases hq2 with hq2 | hq2
        · omega
        · rcases List.mem_map.mp hq2 with ⟨q2, hq3, hq4⟩
          have := h.1 q2 hq3
          omega

lemma foldl_orderedInsert_perm :
    ∀ (cs : List Completion) (m : List (Nat × TargetScanResult)),
    (m.map Prod.fst ++ cs.map Prod.fst).Nodup →
    List.Perm (cs.foldl orderedInsert m) (m ++ cs.map pairOf) := by
  intro cs
  induction cs with
  | nil => intro m _; simp
  | cons c rest ih =>
    intro m hnd
    have hnd0 : (m.map Prod.fst ++ c.1 :: rest.map Prod.fst).Nodup := by
      simpa using hnd
    have hsplit := List.nodup_append.mp hnd0
    have hfresh : c.1 ∉ m.map Prod.fst := by
      intro hmem
      exact absurd (show c.1 ∈ c.1 :: rest.map Prod.fst by simp) (hsplit.2.2 hmem)
    have hstep : List.Perm (orderedInsert m c) ((c.1, c.2.1) :: m) := insertSorted_perm hfresh
    have hnd2 : ((orderedInsert m c).map Prod.fst ++ rest.map Prod.fst).Nodup := by
      have hmapperm : List.Perm ((orderedInsert m c).map Prod.fst) (c.1 :: m.map Prod.fst) := by
        simpa using hstep.map Prod.fst
      have hperm2 : List.Perm ((orderedInsert m c).map Prod.fst ++ rest.map Prod.fst)
          ((c.1 :: m.map Prod.fst) ++ rest.map Prod.fst) := hmapperm.append_right _
      have hmid : List.Perm (m.map Prod.fst ++ c.1 :: rest.map Prod.fst)
          (c.1 :: (m.map Prod.fst ++ rest.map Prod.fst)) := List.perm_middle
      exact hperm2.nodup_iff.mpr (by simpa using hmid.nodup_iff.mp hnd0)
    have h1 : (c :: rest).foldl orderedInsert m
        = rest.foldl orderedInsert (orderedInsert m c) := by simp
    rw [h1]
    refine (ih _ hnd2).trans ?_
    refine (hstep.append_right _).trans ?_
    have hmid2 : List.Perm (((c.1, c.2.1) :: m) ++ rest.map pairOf)
        (m ++ (c.1, c.2.1) :: rest.map pairOf) := List.perm_middle.symm
    have hmaps : m ++ (c.1, c.2.1) :: rest.map pairOf = m ++ (c :: rest).map pairOf := by
      simp [pairOf]
    exact hmaps ▸ hmid2

lemma foldl_orderedInsert_pairwise :
    ∀ (cs : List Completion) (m : List (Nat × TargetScanResult)),
    m.Pairwise (fun p q => p.1 < q.1) →
    (cs.foldl orderedInsert m).Pairwise (fun p q => p.1 < q.1) := by
  intro cs
  induction cs with
  | nil => intro m h; simpa using h
  | cons c rest ih =>
    intro m h
    simpa using ih (orderedInsert m c) (insertSorted_pairwise h)

lemma scanStep_ordered (t : Nat) (st : WorkerState) (c : Completion) :
    (scanStep t st c).ordered = orderedInsert st.ordered c := by
  simp only [scanStep, orderedInsert]
  split <;> rfl

lemma scanStep_total (t : Nat) (st : WorkerState) (c : Completion) :
    (scanStep t st c).job.total_targets = st.job.total_targets := by
  simp only [scanStep]
  split <;> rfl

lemma scanStep_completed (t : Nat) (st : WorkerState) (c : Completion) :
    (scanStep t st c).job.completed_targets = (orderedInsert st.ordered c).length := by
  simp only [scanStep, orderedInsert]
  split <;> simp

lemma scanStep_results (t : Nat) (st : WorkerState) (c : Completion) :
    (scanStep t st c).job.results = (orderedInsert st.ordered c).map Prod.snd := by
  simp only [scanStep, orderedInsert]
  split <;> rfl

lemma scanStep_status_lt (t : Nat) (st : WorkerState) (c : Completion)
    (h : (orderedInsert st.ordered c).length < st.job.total_targets) :
    (scanStep t st c).job.status = c.2.2 := by
  simp only [scanStep, orderedInsert, List.length_map] at h ⊢
  split
  · omega
  · rfl

lemma scanStep_status_ge (t : Nat) (st : WorkerState) (c : Completion)
    (h : st.job.total_targets ≤ (orderedInsert st.ordered c).length) :
    (scanStep t st c).job.status = "complete" := by
  simp only [scanStep, orderedInsert, List.length_map] at h ⊢
  split
  · rfl
  · omega

lemma scanStep_finished_lt (t : Nat) (st : WorkerState) (c : Completion)
    (h : (orderedInsert st.ordered c).length < st.job.total_targets) :
    (scanStep t st c).job.finished_at = st.job.finished_at := by
  simp only [scanStep, orderedInsert, List.length_map] at h ⊢
  split
  · omega
  · rfl

lemma scanStep_finished_ge (t : Nat) (st : WorkerState) (c : Completion)
    (h : st.job.total_targets ≤ (orderedInsert st.ordered c).length) :
    (scanStep t st c).job.finished_at = some t := by
  simp only [scanStep, orderedInsert, List.length_map] at h ⊢
  split
  · rfl
  · omega

lemma scanStep_snapshot_lt (t : Nat) (st : WorkerState) (c : Completion)
    (h : (orderedInsert st.ordered c).length < st.job.total_targets) :
    (scanStep t st c).snapshot = st.snapshot := by
  simp only [scanStep, orderedInsert, List.length_map] at h ⊢
  split
  · omega
  · rfl

lemma scanStep_snapshot_ge (t : Nat) (st : WorkerState) (c : Completion)
    (h : st.job.total_targets ≤ (orderedInsert st.ordered c).length) :
    (scanStep t st c).snapshot = some (scanStep t st c).job := by
  simp only [scanStep, orderedInsert, List.length_map] at h ⊢
  split
  · rfl
  · omega

lemma scanStep_count_lt (t : Nat) (st : WorkerState) (c : Completion)
    (h : (orderedInsert st.ordered c).length < st.job.total_targets) :
    (scanStep t st c).finalizeCount = st.finalizeCount := by
  simp only [scanStep, orderedInsert, List.length_map] at h ⊢
  split
  · omega
  · rfl

lemma scanStep_count_ge (t : Nat) (st : WorkerState) (c : Completion)
    (h : st.job.total_targets ≤ (orderedInsert st.ordered c).length) :
    (scanStep t st c).finalizeCount = st.finalizeCount + 1 := by
  simp only [scanStep, orderedInsert, List.length_map] at h ⊢
  split
  · rfl
  · omega

lemma foldl_scanStep_ordered (t : Nat) :
    ∀ (cs : List Completion) (st : WorkerState),
    (cs.foldl (scanStep t) st).ordered = cs.foldl orderedInsert st.ordered := by
  intro cs
  induction cs with
  | nil => intro st; rfl
  | cons c rest ih =>
    intro st
    simp only [List.foldl_cons]
    rw [ih, scanStep_ordered]

lemma foldl_scanStep_total (t : Nat) :
    ∀ (cs : List Completion) (st : WorkerState),
    (cs.foldl (scanStep t) st).job.total_targets = st.job.total_targets := by
  intro cs
  induction cs with
  | nil => intro st; rfl
  | cons c rest ih =>
    intro st
    simp only [List.foldl_cons]
    rw [ih, scanStep_total]

lemma scanWorkerAfter_zero (t : Nat) (job : ScanJob) (cs : List Completion) :
    scanWorkerAfter t job cs 0 =
      { job := job, ordered := [], snapshot := none, finalizeCount := 0 } := rfl

lemma scanWorkerAfter_succ (t : Nat) (job : ScanJob) (cs : List Completion)
    (k : Nat) (hk : k < cs.length) :
    scanWorkerAfter t job cs (k + 1) =
      scanStep t (scanWorkerAfter t job cs k) (cs.get ⟨k, hk⟩) := by
  have h1 : cs.take (k + 1) = cs.take k ++ [cs.get ⟨k, hk⟩] := by
    rw [List.take_succ, List.getElem?_eq_getElem hk]
    simp
  simp only [scanWorkerAfter, h1, List.foldl_append, List.foldl_cons, List.foldl_nil]

lemma scanWorkerAfter_ordered (t : Nat) (job : ScanJob) (cs : List Completion)
    (k : Nat) :
    (scanWorkerAfter t job cs k).ordered = (cs.take k).foldl orderedInsert [] := by
  simp [scanWorkerAfter, foldl_scanStep_ordered]

lemma scanWorkerAfter_total (t : Nat) (job : ScanJob) (cs : List Completion)
    (k : Nat) :
    (scanWorkerAfter t job cs k).job.total_targets = job.total_targets := by
  simp [scanWorkerAfter, foldl_scanStep_total]

lemma scanWorkerAfter_ordered_length (t : Nat) (job : ScanJob)
    (cs : List Completion) (hnd : (cs.map Prod.fst).Nodup)
    (k : Nat) (hk : k ≤ cs.length) :
    (scanWorkerAfter t job cs k).ordered.length = k := by
  rw [scanWorkerAfter_ordered]
  have htake : ((cs.take k).map Prod.fst).Nodup := by
    rw [List.map_take]
    exact List.Nodup.sublist (List.take_sublist _ _) hnd
  have hperm := foldl_orderedInsert_perm (cs.take k) [] (by simpa using htake)
  have hlen := hperm.length_eq
  simp only [List.nil_append, List.length_map, List.length_take] at hlen
  omega

lemma scanWorkerAfter_completed (t : Nat) (job : ScanJob) (cs : List Completion)
    (hnd : (cs.map Prod.fst).Nodup) (hc0 : job.completed_targets = 0) :
    ∀ k, k ≤ cs.length →
    (scanWorkerAfter t job cs k).job.completed_targets = k := by
  intro k
  induction k with
  | zero => intro _; simpa [scanWorkerAfter_zero] using hc0
  | succ k _ =>
    intro hk
    have hklt : k < cs.length := by omega
    rw [scanWorkerAfter_succ t job cs k hklt, scanStep_completed]
    have := scanWorkerAfter_ordered_length t job cs hnd (k + 1) hk
    rw [scanWorkerAfter_succ t job cs k hklt, scanStep_ordered] at this
    exact this

lemma scanWorkerAfter_status_mid (t : Nat) (job : ScanJob) (cs : List Completion)
    (hnd : (cs.map Prod.fst).Nodup) (htot : job.total_targets = cs.length)
    (k : Nat) (hk1 : k < cs.length) :
    (scanWorkerAfter t job cs (k + 1)).job.status =
      if cs.length ≤ k + 1 then "complete" else (cs.get ⟨k, hk1⟩).2.2 := by
  have hlen : (orderedInsert (scanWorkerAfter t job cs k).ordered
      (cs.get ⟨k, hk1⟩)).length = k + 1 := by
    have := scanWorkerAfter_ordered_length t job cs hnd (k + 1) hk1
    rw [scanWorkerAfter_succ t job cs k hk1, scanStep_ordered] at this
    exact this
  rw [scanWorkerAfter_succ t job cs k hk1]
  by_cases hfin : cs.length ≤ k + 1
  · rw [if_pos hfin]
    apply scanStep_status_ge
    rw [hlen, scanWorkerAfter_total, htot]
    exact hfin
  · rw [if_neg hfin]
    apply scanStep_status_lt
    rw [hlen, scanWorkerAfter_total, htot]
    omega

lemma scanWorkerAfter_pre_final (t : Nat) (job : ScanJob) (cs : List Completion)
    (hnd : (cs.map Prod.fst).Nodup) (htot : job.total_targets = cs.length) :
    ∀ k, k < cs.length →
    (scanWorkerAfter t job cs k).snapshot = none ∧
    (scanWorkerAfter t job cs k).finalizeCount = 0 := by
  intro k
  induction k with
  | zero => intro _; exact ⟨rfl, rfl⟩
  | succ k ih =>
    intro hk
    have hklt : k < cs.length := by omega
    have hlen : (orderedInsert (scanWorkerAfter t job cs k).ordered
        (cs.get ⟨k, hklt⟩)).length = k + 1 := by
      have := scanWorkerAfter_ordered_length t job cs hnd (k + 1) (by omega)
      rw [scanWorkerAfter_succ t job cs k hklt, scanStep_ordered] at this
      exact this
    have hcond : (orderedInsert (scanWorkerAfter t job cs k).ordered
        (cs.get ⟨k, hklt⟩)).length
        < (scanWorkerAfter t job cs k).job.total_targets := by
      rw [hlen, scanWorkerAfter_total, htot]
      omega
    rw [scanWorkerAfter_succ t job cs k hklt]
    rw [scanStep_snapshot_lt t _ _ hcond, scanStep_count_lt t _ _ hcond]
    exact ih hklt

lemma scanWorkerAfter_final (t : Nat) (job : ScanJob) (cs : List Completion)
    (hnd : (cs.map Prod.fst).Nodup) (htot : job.total_targets = cs.length)
    (hpos : 0 < cs.length) :
    (scanWorkerAfter t job cs cs.length).job.status = "complete" ∧
    (scanWorkerAfter t job cs cs.length).job.finished_at = some t ∧
    (scanWorkerAfter t job cs cs.length).snapshot
      = some (scanWorkerAfter t job cs cs.length).job ∧
    (scanWorkerAfter t job cs cs.length).finalizeCount = 1 := by
  obtain ⟨k, hk⟩ : ∃ k, cs.length = k + 1 := ⟨cs.length - 1, by omega⟩
  have hklt : k < cs.length := by omega
  have hlen : (orderedInsert (scanWorkerAfter t job cs k).ordered
      (cs.get ⟨k, hklt⟩)).length = k + 1 := by
    have := scanWorkerAfter_ordered_length t job cs hnd (k + 1) (by omega)
    rw [scanWorkerAfter_succ t job cs k hklt, scanStep_ordered] at this
    exact this
  have hcond : (scanWorkerAfter t job cs k).job.total_targets
      ≤ (orderedInsert (scanWorkerAfter t job cs k).ordered
          (cs.get ⟨k, hklt⟩)).length := by
    rw [hlen, scanWorkerAfter_total, htot]
    omega
  have hpre := scanWorkerAfter_pre_final t job cs hnd htot k hklt
  rw [hk, scanWorkerAfter_succ t job cs k hklt]
  refine ⟨scanStep_status_ge t _ _ hcond, scanStep_finished_ge t _ _ hcond,
    scanStep_snapshot_ge t _ _ hcond, ?_⟩
  rw [scanStep_count_ge t _ _ hcond, hpre.2]

lemma scan_worker_eq_after (t : Nat) (job : ScanJob) (targets : List String)
    (cs : List Completion) (hne : targets ≠ []) :
    scan_worker t job targets cs = scanWorkerAfter t job cs cs.length := by
  have hempty : targets.isEmpty = false := by
    cases targets with
    | nil => exact absurd rfl hne
    | cons a l => rfl
  simp [scan_worker, hempty, scanWorkerAfter, List.take_length]

lemma foldl_scanStep_results (t : Nat) (st : WorkerState) (cs : List Completion)
    (hne : cs ≠ []) :
    (cs.foldl (scanStep t) st).job.results
      = (cs.foldl (scanStep t) st).ordered.map Prod.snd := by
  rcases List.eq_nil_or_concat cs with h | ⟨l, c, h⟩
  · exact absurd h hne
  · subst h
    rw [List.concat_eq_append, List.foldl_concat, scanStep_results, scanStep_ordered]

lemma final_ordered_perm (t : Nat) (job : ScanJob) (cs : List Completion)
    (hnd : (cs.map Prod.fst).Nodup) :
    List.Perm ((scanWorkerAfter t job cs cs.length).ordered) (cs.map pairOf) := by
  rw [scanWorkerAfter_ordered, List.take_length]
  simpa using foldl_orderedInsert_perm cs [] (by simpa using hnd)

lemma final_ordered_keys (t : Nat) (job : ScanJob) (cs : List Completion)
    (hperm : List.Perm (cs.map Prod.fst) (List.range job.total_targets)) :
    (scanWorkerAfter t job cs cs.length).ordered.map Prod.fst
      = List.range job.total_targets := by
  have hnd : (cs.map Prod.fst).Nodup := hperm.nodup_iff.mpr (List.nodup_range _)
  have hp1 := (final_ordered_perm t job cs hnd).map Prod.fst
  have hp2 : (cs.map pairOf).map Prod.fst = cs.map Prod.fst := by
    rw [List.map_map]
    rfl
  rw [hp2] at hp1
  have hsorted : ((scanWorkerAfter t job cs cs.length).ordered.map Prod.fst).Pairwise
      (· < ·) := by
    rw [List.pairwise_map]
    rw [scanWorkerAfter_ordered, List.take_length]
    exact foldl_orderedInsert_pairwise cs [] (by simp)
  haveI : IsAntisymm ℕ (· < ·) := ⟨fun a b h1 h2 => absurd h2 (Nat.lt_asymm h1)⟩
  exact List.eq_of_perm_of_sorted (hp1.trans hperm) hsorted (List.pairwise_lt_range _)

lemma final_ordered_lookup (t : Nat) (job : ScanJob) (cs : List Completion)
    (hperm : List.Perm (cs.map Prod.fst) (List.range job.total_targets))
    (i : Nat) (r : TargetScanResult) (tag : String)
    (hmem : (i, (r, tag)) ∈ cs) :
    (scanWorkerAfter t job cs cs.length).ordered[i]? = some (i, r) := by
  have hnd : (cs.map Prod.fst).Nodup := hperm.nodup_iff.mpr (List.nodup_range _)
  have hkeys := final_ordered_keys t job cs hperm
  have hmem2 : (i, r) ∈ (scanWorkerAfter t job cs cs.length).ordered := by
    refine (final_ordered_perm t job cs hnd).mem_iff.mpr ?_
    have : pairOf (i, (r, tag)) ∈ cs.map pairOf := List.mem_map_of_mem pairOf hmem
    simpa [pairOf] using this
  rcases List.mem_iff_getElem.mp hmem2 with ⟨j, hj, hget⟩
  have hjlen : j < ((scanWorkerAfter t job cs cs.length).ordered.map Prod.fst).length := by
    simpa using hj
  have hfst : ((scanWorkerAfter t job cs cs.length).ordered.map Prod.fst)[j] = i := by
    rw [List.getElem_map]
    rw [hget]
  have hlenrange : j < job.total_targets := by
    have h2 := hjlen
    rw [hkeys] at h2
    simpa using h2
  have hrange : ((scanWorkerAfter t job cs cs.length).ordered.map Prod.fst)[j]? = some j := by
    rw [hkeys]
    simp [hlenrange]
  have hfst2 : ((scanWorkerAfter t job cs cs.length).ordered.map Prod.fst)[j]? = some i := by
    rw [List.getElem?_eq_getElem hjlen, hfst]
  have hij : i = j := by
    rw [hfst2] at hrange
    exact Option.some.inj hrange
  subst hij
  rw [List.getElem?_eq_getElem hj]
  rw [hget]

/-! ### Claim theorems -/

/-- Claim C2: a per-target pipeline exception yields the substitute
result (`ip_address="unknown"`, empty defaults, `risk_level="unknown"`,
`risk_summary` = the error detail) tagged `"error"` — the target is never
omitted — and any job whose completions cover every submitted index still
reaches terminal `"complete"`. -/
theorem scan_target_error_substitution
    (raw_target excMsg : String) (token : String) (targets : List String)
    (ai : Bool) (t0 t : Nat) (cs : List Completion)
    (hne : targets ≠ [])
    (hperm : List.Perm (cs.map Prod.fst) (List.range targets.length)) :
    scan_target raw_target (Except.error excMsg)
      = (build_error_result raw_target excMsg, "error") ∧
    (build_error_result raw_target excMsg).ip_address = "unknown" ∧
    (build_error_result raw_target excMsg).availability = false ∧
    (build_error_result raw_target excMsg).open_ports = [] ∧
    (build_error_result raw_target excMsg).accessibility_tests = [] ∧
    (build_error_result raw_target excMsg).testing_techniques = [] ∧
    (build_error_result raw_target excMsg).publicly_exposed = false ∧
    (build_error_result raw_target excMsg).risk_level = "unknown" ∧
    (build_error_result raw_target excMsg).risk_summary = excMsg ∧
    (scan_worker t (queue_scan token targets ai t0) targets cs).job.status
      = "complete" := by
  have hnd : (cs.map Prod.fst).Nodup := hperm.nodup_iff.mpr (List.nodup_range _)
  have hlen : cs.length = targets.length := by simpa using hperm.length_eq
  have htot : (queue_scan token targets ai t0).total_targets = cs.length := by
    simp [queue_scan, hlen]
  have hpos : 0 < cs.length := by
    rw [hlen]
    cases targets with
    | nil => exact absurd rfl hne
    | cons a l => simp
  refine ⟨rfl, rfl, rfl, rfl, rfl, rfl, rfl, rfl, rfl, ?_⟩
  rw [scan_worker_eq_after t _ targets cs hne]
  exact (scanWorkerAfter_final t _ cs hnd htot hpos).1

/-- Witness for C2 at a concrete two-target batch whose completions arrive
out of order, one of them an error result. -/
theorem scan_target_error_substitution_witness :
    scan_target "a" (Except.error "boom")
      = (build_error_result "a" "boom", "error") ∧
    (scan_worker 5 (queue_scan "tok" ["a", "b"] false 1) ["a", "b"]
        [(1, (build_error_result "b" "e1", "error")),
         (0, (build_error_result "a" "boom", "error"))]).job.status
      = "complete" := by
  have h := scan_target_error_substitution "a" "boom" "tok" ["a", "b"] false 1 5
    [(1, (build_error_result "b" "e1", "error")),
     (0, (build_error_result "a" "boom", "error"))]
    (by decide) (by decide)
  exact ⟨h.1, h.2.2.2.2.2.2.2.2.2⟩

/-- Claim C6: when the AI collaborator reports the rate-limit signal
(`risk_level=None`, `risk_summary="rate_limited"`), `interpret_risk` with
AI enabled returns exactly what the deterministic path alone (AI disabled)
produces; and that signal is precisely what `generate_risk_assessment`
emits for a quota-exhaustion exception. -/
theorem interpret_risk_rate_limit_fallback
    (scan : ScanPayload) (ai : Except String AiRisk) :
    interpret_risk scan true
        (Except.ok ⟨none, some (JVal.str "rate_limited"), none⟩)
      = interpret_risk scan false ai ∧
    generate_risk_assessment true
        (GenOutcome.raise "429 RESOURCE_EXHAUSTED: Quota exceeded")
      = Except.ok ⟨none, some (JVal.str "rate_limited"), none⟩ := by
  constructor
  · rfl
  · rfl

/-- Claim C8: an empty target list finalizes the job immediately with the
distinct terminal spelling `"completed"`, zero totals, empty results,
`finished_at` stamped and the snapshot persisted, independent of any
completion list (no per-target work). -/
theorem queue_scan_empty_batch (token : String) (ai : Bool) (t0 t : Nat)
    (cs : List Completion) :
    (queue_scan token [] ai t0).total_targets = 0 ∧
    (queue_scan token [] ai t0).completed_targets = 0 ∧
    (queue_scan token [] ai t0).results = [] ∧
    (scan_worker t (queue_scan token [] ai t0) [] cs).job.status = "completed" ∧
    (scan_worker t (queue_scan token [] ai t0) [] cs).job.status ≠ "complete" ∧
    (scan_worker t (queue_scan token [] ai t0) [] cs).job.finished_at = some t ∧
    (scan_worker t (queue_scan token [] ai t0) [] cs).job.total_targets = 0 ∧
    (scan_worker t (queue_scan token [] ai t0) [] cs).job.completed_targets = 0 ∧
    (scan_worker t (queue_scan token [] ai t0) [] cs).job.results = [] ∧
    (scan_worker t (queue_scan token [] ai t0) [] cs).snapshot
      = some (scan_worker t (queue_scan token [] ai t0) [] cs).job ∧
    scan_worker t (queue_scan token [] ai t0) [] cs
      = scan_worker t (queue_scan token [] ai t0) [] [] := by
  refine ⟨rfl, rfl, rfl, rfl, ?_, rfl, rfl, rfl, rfl, rfl, rfl⟩
  exact fun h => (by decide : ("completed" : String) ≠ "complete") h

/-- Claim C9 counterexample: with a *stale* (but present) cache, a fetch
failure propagates to the caller instead of serving the cached table —
refuting "serves the stale cached table"; the cache is retained. -/
theorem stale_cache_fetch_failure_counterexample :
    (get_aws_ip_ranges
        (some { syncToken := some "s", createDate := some "d",
                prefixes := [], ipv6_prefixes := [], cached_at := 0 })
        43200 (Except.error "ConnectError")).1
      = Except.error "ConnectError" ∧
    is_aws_cache_valid
        (some { syncToken := some "s", createDate := some "d",
                prefixes := [], ipv6_prefixes := [], cached_at := 0 }) 43200
      = false ∧
    (get_aws_ip_ranges
        (some { syncToken := some "s", createDate := some "d",
                prefixes := [], ipv6_prefixes := [], cached_at := 0 })
        43200 (Except.error "ConnectError")).2
      = some { syncToken := some "s", createDate := some "d",
               prefixes := [], ipv6_prefixes := [], cached_at := 0 } := by
  refine ⟨rfl, by decide, rfl⟩

/-- Claim C9 (amended): a fetch failure propagates whenever the cache is
empty *or* stale (only a still-valid cache is served without fetching),
and a failure never clears previously cached data — for both providers. -/
theorem range_cache_failure_semantics
    (awsCache : Option AwsCacheData) (gcpCache : Option GcpCacheData)
    (now : Nat) (e : String) :
    (is_aws_cache_valid awsCache now = false →
      get_aws_ip_ranges awsCache now (Except.error e) = (Except.error e, awsCache)) ∧
    (∀ c, awsCache = some c → is_aws_cache_valid awsCache now = true →
      ∀ fetch, get_aws_ip_ranges awsCache now fetch
        = (Except.ok ⟨c.syncToken, c.createDate, c.prefixes, c.ipv6_prefixes⟩, some c)) ∧
    (is_gcp_cache_valid gcpCache now = false →
      get_gcp_ip_ranges gcpCache now (Except.error e) = (Except.error e, gcpCache)) ∧
    (∀ c, gcpCache = some c → is_gcp_cache_valid gcpCache now = true →
      ∀ fetch, get_gcp_ip_ranges gcpCache now fetch
        = (Except.ok ⟨c.syncToken, c.creationTime, c.prefixes⟩, some c)) := by
  refine ⟨?_, ?_, ?_, ?_⟩
  · intro h
    simp [get_aws_ip_ranges, h, fetch_aws_ip_ranges]
  · intro c hc h fetch
    subst hc
    simp [get_aws_ip_ranges, h]
  · intro h
    simp [get_gcp_ip_ranges, h, fetch_gcp_ip_ranges]
  · intro c hc h fetch
    subst hc
    simp [get_gcp_ip_ranges, h]

/-- Witness for C9 (amended) at concrete stale and valid caches. -/
theorem range_cache_failure_semantics_witness :
    get_aws_ip_ranges
        (some { syncToken := none, createDate := none,
                prefixes := [], ipv6_prefixes := [], cached_at := 0 })
        30000 (Except.error "boom")
      = (Except.error "boom",
         some { syncToken := none, createDate := none,
                prefixes := [], ipv6_prefixes := [], cached_at := 0 }) ∧
    get_gcp_ip_ranges
        (some { syncToken := none, creationTime := none,
                prefixes := [], cached_at := 100 })
        200 (Except.error "boom")
      = (Except.ok ⟨none, none, []⟩,
         some { syncToken := none, creationTime := none,
                prefixes := [], cached_at := 100 }) := by
  constructor
  · exact (range_cache_failure_semantics
      (some { syncToken := none, createDate := none,
              prefixes := [], ipv6_prefixes := [], cached_at := 0 })
      none 30000 "boom").1 (by decide)
  · exact (range_cache_failure_semantics none
      (some { syncToken := none, creationTime := none,
              prefixes := [], cached_at := 100 })
      200 "boom").2.2.2
      { syncToken := none, creationTime := none, prefixes := [], cached_at := 100 }
      rfl (by decide) (Except.error "boom")

/-- Claim C10: with AI enabled but no API key, the collaborator's fixed
plain-text configuration message fails JSON parsing, is wrapped as an
`unknown`-level assessment with that message as summary, and
`interpret_risk` accepts it (non-empty summary) instead of falling
through to the deterministic rules. -/
theorem interpret_risk_no_api_key (outcome : GenOutcome) (scan : ScanPayload) :
    generate_risk_assessment false outcome
      = Except.ok ⟨some (JVal.str "unknown"), some (JVal.str notConfiguredMessage), none⟩ ∧
    interpret_risk scan true (generate_risk_assessment false outcome)
      = Except.ok (some (JVal.str "unknown"), some (JVal.str notConfiguredMessage), none) := by
  constructor
  · rfl
  · rfl

/-- Claim C5 counterexample: a GCP table with two entries both matching the
IP (integer of 10.1.2.3) — the matcher returns only the first entry,
although the second also matches, so "all matches are collected, not just
the first" fails for the GCP table. -/
theorem gcp_first_match_counterexample :
    find_matching_gcp_prefix 167838211
        [{ ipv4Prefix := some "10.0.0.0/8", ipv6Prefix := none,
           service := some "Google Cloud", scope := some "global" },
         { ipv4Prefix := some "10.1.0.0/16", ipv6Prefix := none,
           service := some "Google Cloud Storage", scope := some "global" }]
      = some { ipv4Prefix := some "10.0.0.0/8", ipv6Prefix := none,
               service := some "Google Cloud", scope := some "global" } ∧
    gcp_prefix_matches 167838211
        { ipv4Prefix := some "10.1.0.0/16", ipv6Prefix := none,
          service := some "Google Cloud Storage", scope := some "global" }
      = true ∧
    ({ ipv4Prefix := some "10.0.0.0/8", ipv6Prefix := none,
       service := some "Google Cloud", scope := some "global" } : GcpPrefixEntry)
      ≠ { ipv4Prefix := some "10.1.0.0/16", ipv6Prefix := none,
          service := some "Google Cloud Storage", scope := some "global" } := by
  refine ⟨by decide, by decide, by decide⟩

/-- Claim C5 (amended): the AWS matcher scans every prefix entry and
collects *all* matches in table order; the GCP matcher checks both
prefix-field names per entry but returns only the *first* matching entry;
a prefix matches iff the IP integer lies inclusively between the network
and broadcast addresses; missing or invalid CIDR values are skipped
silently. -/
theorem provider_matcher_characterization :
    (∀ (ip_int : Nat) (tbl : List AwsPrefixEntry),
      find_all_matching_prefixes ip_int tbl
        = tbl.filter (aws_prefix_matches ip_int)) ∧
    (∀ (ip_int : Nat) (tbl : List GcpPrefixEntry),
      find_matching_gcp_prefix ip_int tbl
        = tbl.find? (gcp_prefix_matches ip_int)) ∧
    (∀ (ip_int : Nat) (e : GcpPrefixEntry),
      gcp_prefix_matches ip_int e
        = (cidr_value_matches ip_int ( GcpPrefixEntry.ipv4Prefix e)
            || cidr_value_matches ip_int ( GcpPrefixEntry.ipv6Prefix e))) ∧
    (∀ ip_int : Nat, cidr_value_matches ip_int none = false) ∧
    (∀ (ip_int : Nat) (s : String) (lo hi : Nat), ipNetworkV4 s = some (lo, hi) →
      (cidr_value_matches ip_int (some s) = true ↔ lo ≤ ip_int ∧ ip_int ≤ hi)) ∧
    (∀ (ip_int : Nat) (s : String), ipNetworkV4 s = none →
      cidr_value_matches ip_int (some s) = false) := by
  refine ⟨?_, ?_, ?_, ?_, ?_, ?_⟩
  · intro ip_int tbl
    induction tbl with
    | nil => rfl
    | cons e rest ih =>
      by_cases h : aws_prefix_matches ip_int e
      · simp [find_all_matching_prefixes, h, List.filter_cons, ih]
      · simp [find_all_matching_prefixes, h, List.filter_cons, ih]
  · intro ip_int tbl
    induction tbl with
    | nil => rfl
    | cons e rest ih =>
      by_cases h : gcp_prefix_matches ip_int e
      · simp [ find_matching_gcp_prefix, h, List.find?_cons]
      · simp [ find_matching_gcp_prefix, h, List.find?_cons, ih]
  · intro ip_int e
    rfl
  · intro ip_int
    rfl
  · intro ip_int s lo hi h
    have hs : ¬s = "" := by
      intro he
      subst he
      have hnone : ipNetworkV4 "" = none := rfl
      rw [hnone] at h
      cases h
    simp [cidr_value_matches, hs, h]
  · intro ip_int s h
    by_cases hs : s = ""
    · simp [cidr_value_matches, hs]
    · simp [cidr_value_matches, hs, h]

/-- Witness for the amended C5 characterization at a concrete CIDR. -/
theorem provider_matcher_characterization_witness :
    ipNetworkV4 "10.1.0.0/16" = some (167837696, 167903231) ∧
    (cidr_value_matches 167838211 (some "10.1.0.0/16") = true
      ↔ 167837696 ≤ 167838211 ∧ 167838211 ≤ 167903231) ∧
    cidr_value_matches 167838211 (some "not-a-cidr") = false := by
  refine ⟨by decide, ?_, ?_⟩
  · exact provider_matcher_characterization.2.2.2.2.1 167838211 "10.1.0.0/16"
      167837696 167903231 (by decide)
  · exact provider_matcher_characterization.2.2.2.2.2 167838211 "not-a-cidr"
      (by decide)

lemma pyMaxBy_spec (key : AwsPrefixEntry → Int) :
    ∀ (xs : List AwsPrefixEntry) (x : AwsPrefixEntry),
    ∃ k, k < (x :: xs).length ∧ (x :: xs)[k]? = some (pyMaxBy key x xs) ∧
      (∀ y ∈ x :: xs, key y ≤ key (pyMaxBy key x xs)) ∧
      (∀ j q, j < k → (x :: xs)[j]? = some q → key q < key (pyMaxBy key x xs)) := by
  intro xs
  induction xs with
  | nil =>
    intro x
    refine ⟨0, by simp, by simp [pyMaxBy], ?_, ?_⟩
    · intro y hy
      simp at hy
      simp [hy, pyMaxBy]
    · intro j q hj _
      omega
  | cons y ys ih =>
    intro x
    by_cases hxy : key x < key y
    · have hstep : pyMaxBy key x (y :: ys) = pyMaxBy key y ys := by
        simp [pyMaxBy, hxy]
      rcases ih y with ⟨k, hk, hget, hmax, hstrict⟩
      refine ⟨k + 1, by simpa using hk, ?_, ?_, ?_⟩
      · rw [hstep, List.getElem?_cons_succ]
        exact hget
      · intro z hz
        rw [hstep]
        rcases List.mem_cons.mp hz with hz | hz
        · subst hz
          exact le_of_lt (lt_of_lt_of_le hxy (hmax y (by simp)))
        · exact hmax z hz
      · intro j q hj hq
        rw [hstep]
        cases j with
        | zero =>
          rw [List.getElem?_cons_zero] at hq
          have hqx : q = x := by exact (Option.some.inj hq).symm
          subst hqx
          exact lt_of_lt_of_le hxy (hmax y (by simp))
        | succ j2 =>
          rw [List.getElem?_cons_succ] at hq
          exact hstrict j2 q (by omega) hq
    · have hstep : pyMaxBy key x (y :: ys) = pyMaxBy key x ys := by
        simp [pyMaxBy, hxy]
      have hyx : key y ≤ key x := not_lt.mp hxy
      rcases ih x with ⟨k, hk, hget, hmax, hstrict⟩
      cases k with
      | zero =>
        have hxb : x = pyMaxBy key x ys := by
          rw [List.getElem?_cons_zero] at hget
          exact Option.some.inj hget
        refine ⟨0, by simp, ?_, ?_, ?_⟩
        · rw [hstep, List.getElem?_cons_zero, ← hxb]
        · intro z hz
          rw [hstep]
          rcases List.mem_cons.mp hz with hz | hz
          · rw [hz, ← hxb]
          · rcases List.mem_cons.mp hz with hz | hz
            · rw [hz, ← hxb]
              exact hyx
            · exact hmax z (by simp [hz])
        · intro j q hj _
          omega
      | succ k2 =>
        rw [List.getElem?_cons_succ] at hget
        have hxlt : key x < key (pyMaxBy key x ys) :=
          hstrict 0 x (by omega) (by rw [List.getElem?_cons_zero])
        refine ⟨k2 + 2, by simpa using hk, ?_, ?_, ?_⟩
        · rw [hstep, List.getElem?_cons_succ, List.getElem?_cons_succ]
          exact hget
        · intro z hz
          rw [hstep]
          rcases List.mem_cons.mp hz with hz | hz
          · rw [hz]
            exact hmax x (by simp)
          · rcases List.mem_cons.mp hz with hz | hz
            · rw [hz]
              omega
            · exact hmax z (by simp [hz])
        · intro j q hj hq
          rw [hstep]
          cases j with
          | zero =>
            rw [List.getElem?_cons_zero] at hq
            rw [(Option.some.inj hq).symm]
            exact hxlt
          | succ j2 =>
            cases j2 with
            | zero =>
              rw [List.getElem?_cons_succ, List.getElem?_cons_zero] at hq
              rw [(Option.some.inj hq).symm]
              omega
            | succ j3 =>
              rw [List.getElem?_cons_succ, List.getElem?_cons_succ] at hq
              exact hstrict (j3 + 1) q (by omega) (by
                rw [List.getElem?_cons_succ]
                exact hq)

/-- Claim C4: among all matching prefixes, the one whose service has the
highest priority in the explicit table (S3=10 … EKS=1, unrecognized
services 0, AMAZON −1, a missing service field counts as AMAZON) is
selected, ties broken by table iteration order (first-seen wins); in
particular an S3 prefix beats an AMAZON prefix matching the same IP. -/
theorem find_best_matching_prefix_priority :
    (∀ (ip_int : Nat) (tbl : List AwsPrefixEntry) (m : AwsPrefixEntry)
        (ms : List AwsPrefixEntry),
      find_all_matching_prefixes ip_int tbl = m :: ms →
      ∃ (p : AwsPrefixEntry) (k : Nat),
        find_best_matching_prefix ip_int tbl = some p ∧
        (m :: ms)[k]? = some p ∧
        (∀ q ∈ m :: ms, get_priority q ≤ get_priority p) ∧
        (∀ (j : Nat) (q : AwsPrefixEntry), j < k → (m :: ms)[j]? = some q →
          get_priority q < get_priority p)) ∧
    get_priority { ip_prefix := none, region := none, service := some "S3", network_border_group := none } = 10 ∧
    get_priority { ip_prefix := none, region := none, service := some "EKS", network_border_group := none } = 1 ∧
    get_priority { ip_prefix := none, region := none, service := some "SNS", network_border_group := none } = 0 ∧
    get_priority { ip_prefix := none, region := none, service := some "AMAZON", network_border_group := none } = -1 ∧
    get_priority { ip_prefix := none, region := none, service := none, network_border_group := none } = -1 ∧
    find_best_matching_prefix 167838211 [awsAmazonExample, awsS3Example]
      = some awsS3Example := by
  refine ⟨?_, by decide, by decide, by decide, by decide, by decide, by decide⟩
  intro ip_int tbl m ms h
  simp only [ find_best_matching_prefix, h]
  rcases pyMaxBy_spec get_priority ms m with ⟨k, hk, hget, hmax, hstrict⟩
  exact ⟨pyMaxBy get_priority m ms, k, rfl, hget, hmax, hstrict⟩

/-- Witness for C4 on the overlapping AMAZON/S3 table. -/
theorem find_best_matching_prefix_priority_witness :
    find_all_matching_prefixes 167838211 [awsAmazonExample, awsS3Example]
      = [awsAmazonExample, awsS3Example] ∧
    (∃ (p : AwsPrefixEntry) (k : Nat),
      find_best_matching_prefix 167838211 [awsAmazonExample, awsS3Example]
        = some p ∧
      (awsAmazonExample :: [awsS3Example])[k]? = some p ∧
      (∀ q ∈ awsAmazonExample :: [awsS3Example],
        get_priority q ≤ get_priority p) ∧
      (∀ (j : Nat) (q : AwsPrefixEntry), j < k →
        (awsAmazonExample :: [awsS3Example])[j]? = some q →
        get_priority q < get_priority p)) :=
  ⟨by decide,
   find_best_matching_prefix_priority.1 167838211
     [awsAmazonExample, awsS3Example] awsAmazonExample [awsS3Example]
     (by decide)⟩

/-- Claim C1: when the job reaches its terminal status, `results` has
exactly `total_targets` entries, entry `i` being the result of the target
submitted at index `i` regardless of completion order (indices written
exactly once since the completion indices are a permutation of the
submission indices), and `completed_targets` climbs monotonically by one
per completed target up to `total_targets`. -/
theorem scan_worker_batch_results
    (token : String) (targets : List String) (ai : Bool) (t0 t : Nat)
    (outcomes : Nat → Except String TargetScanResult) (cs : List Completion)
    (hne : targets ≠ [])
    (hperm : List.Perm (cs.map Prod.fst) (List.range targets.length))
    (hres : ∀ c ∈ cs, c.2 = scan_target (targets.getD c.1 "") (outcomes c.1)) :
    (scan_worker t (queue_scan token targets ai t0) targets cs).job.results.length
      = targets.length ∧
    (∀ i, i < targets.length →
      (scan_worker t (queue_scan token targets ai t0) targets cs).job.results[i]?
        = some (scan_target (targets.getD i "") (outcomes i)).1) ∧
    (cs.map Prod.fst).Nodup ∧
    (∀ k, k ≤ cs.length →
      (scanWorkerAfter t (queue_scan token targets ai t0) cs k).job.completed_targets
        = k) ∧
    (scan_worker t (queue_scan token targets ai t0) targets cs).job.status
      = "complete" := by
  have hnd : (cs.map Prod.fst).Nodup := hperm.nodup_iff.mpr (List.nodup_range _)
  have hlen : cs.length = targets.length := by simpa using hperm.length_eq
  have htotj : (queue_scan token targets ai t0).total_targets = targets.length := rfl
  have hpos : 0 < cs.length := by
    rw [hlen]
    cases targets with
    | nil => exact absurd rfl hne
    | cons a l => simp
  have hcsne : cs ≠ [] := by
    intro h
    rw [h] at hpos
    simp at hpos
  have htot : (queue_scan token targets ai t0).total_targets = cs.length := by
    rw [htotj, hlen]
  have hworker := scan_worker_eq_after t (queue_scan token targets ai t0) targets cs hne
  have hres_eq : (scanWorkerAfter t (queue_scan token targets ai t0) cs cs.length).job.results
      = (scanWorkerAfter t (queue_scan token targets ai t0) cs cs.length).ordered.map
          Prod.snd := by
    simp only [scanWorkerAfter, List.take_length]
    exact foldl_scanStep_results t _ cs hcsne
  have hperm2 : List.Perm (cs.map Prod.fst)
      (List.range (queue_scan token targets ai t0).total_targets) := by
    rw [htotj]
    exact hperm
  refine ⟨?_, ?_, hnd, ?_, ?_⟩
  · rw [hworker, hres_eq]
    rw [List.length_map]
    rw [scanWorkerAfter_ordered_length t _ cs hnd cs.length le_rfl]
    exact hlen
  · intro i hi
    have himem : i ∈ cs.map Prod.fst :=
      hperm.mem_iff.mpr (List.mem_range.mpr hi)
    rcases List.mem_map.mp himem with ⟨c, hc, hcfst⟩
    have hcval := hres c hc
    have hctriple : (i, ((scan_target (targets.getD i "") (outcomes i)).1,
        (scan_target (targets.getD i "") (outcomes i)).2)) ∈ cs := by
      have h2 : (i, ((scan_target (targets.getD i "") (outcomes i)).1,
          (scan_target (targets.getD i "") (outcomes i)).2)) = c := by
        obtain ⟨ci, cpr⟩ := c
        simp only at hcfst hcval
        subst hcfst
        rw [hcval]
      rw [h2]
      exact hc
    have hlk := final_ordered_lookup t (queue_scan token targets ai t0) cs hperm2
      i _ _ hctriple
    rw [hworker, hres_eq, List.getElem?_map, hlk]
    rfl
  · exact scanWorkerAfter_completed t _ cs hnd rfl
  · rw [hworker]
    exact (scanWorkerAfter_final t _ cs hnd htot hpos).1

/-- Witness for C1: two targets completing in reversed order. -/
theorem scan_worker_batch_results_witness :
    (scan_worker 7 (queue_scan "tok" ["a", "b"] false 1) ["a", "b"]
        [(1, scan_target "b" (Except.error "e1")),
         (0, scan_target "a" (Except.error "e0"))]).job.results.length = 2 ∧
    (scan_worker 7 (queue_scan "tok" ["a", "b"] false 1) ["a", "b"]
        [(1, scan_target "b" (Except.error "e1")),
         (0, scan_target "a" (Except.error "e0"))]).job.status = "complete" := by
  have h := scan_worker_batch_results "tok" ["a", "b"] false 1 7
    (fun i => Except.error (String.append "e" (toString i)))
    [(1, scan_target "b" (Except.error "e1")),
     (0, scan_target "a" (Except.error "e0"))]
    (by decide) (by decide) (by decide)
  exact ⟨h.1, h.2.2.2.2⟩

/-- Claim C7: after each completion the transient status equals that
unit's own outcome tag (each later arrival overwrites it); when
`completed_targets` reaches `total_targets`, the status becomes terminal
`"complete"`, `finished_at` is stamped, and finalization (with its
snapshot hand-off) happens exactly once per job. -/
theorem scan_worker_status_lifecycle
    (token : String) (targets : List String) (ai : Bool) (t0 t : Nat)
    (cs : List Completion) (hne : targets ≠ [])
    (hperm : List.Perm (cs.map Prod.fst) (List.range targets.length)) :
    (∀ (k : Nat) (hk : k + 1 < cs.length),
      (scanWorkerAfter t (queue_scan token targets ai t0) cs (k + 1)).job.status
        = (cs.get ⟨k, by omega⟩).2.2) ∧
    (scan_worker t (queue_scan token targets ai t0) targets cs).job.status
      = "complete" ∧
    (scan_worker t (queue_scan token targets ai t0) targets cs).job.finished_at
      = some t ∧
    (scan_worker t (queue_scan token targets ai t0) targets cs).finalizeCount = 1 ∧
    (scan_worker t (queue_scan token targets ai t0) targets cs).snapshot
      = some (scan_worker t (queue_scan token targets ai t0) targets cs).job ∧
    (∀ k, k < cs.length →
      (scanWorkerAfter t (queue_scan token targets ai t0) cs k).finalizeCount = 0 ∧
      (scanWorkerAfter t (queue_scan token targets ai t0) cs k).snapshot = none) := by
  have hnd : (cs.map Prod.fst).Nodup := hperm.nodup_iff.mpr (List.nodup_range _)
  have hlen : cs.length = targets.length := by simpa using hperm.length_eq
  have hpos : 0 < cs.length := by
    rw [hlen]
    cases targets with
    | nil => exact absurd rfl hne
    | cons a l => simp
  have htot : (queue_scan token targets ai t0).total_targets = cs.length := by
    show targets.length = cs.length
    omega
  have hworker := scan_worker_eq_after t (queue_scan token targets ai t0) targets cs hne
  have hfin := scanWorkerAfter_final t (queue_scan token targets ai t0) cs hnd htot hpos
  refine ⟨?_, ?_, ?_, ?_, ?_, ?_⟩
  · intro k hk
    have hk1 : k < cs.length := by omega
    have := scanWorkerAfter_status_mid t (queue_scan token targets ai t0) cs hnd
      htot k hk1
    rw [this, if_neg (by omega)]
  · rw [hworker]
    exact hfin.1
  · rw [hworker]
    exact hfin.2.1
  · rw [hworker]
    exact hfin.2.2.2
  · rw [hworker]
    exact hfin.2.2.1
  · intro k hk
    have := scanWorkerAfter_pre_final t (queue_scan token targets ai t0) cs hnd htot k hk
    exact ⟨this.2, this.1⟩

/-- Witness for C7: two targets completing in reversed order; after the
first completion the transient status is that unit's tag. -/
theorem scan_worker_status_lifecycle_witness :
    (scanWorkerAfter 7 (queue_scan "tok" ["a", "b"] false 1)
        [(1, (build_error_result "b" "e1", "error")),
         (0, (build_error_result "a" "e0", "failed"))] 1).job.status = "error" ∧
    (scan_worker 7 (queue_scan "tok" ["a", "b"] false 1) ["a", "b"]
        [(1, (build_error_result "b" "e1", "error")),
         (0, (build_error_result "a" "e0", "failed"))]).finalizeCount = 1 := by
  have h := scan_worker_status_lifecycle "tok" ["a", "b"] false 1 7
    [(1, (build_error_result "b" "e1", "error")),
     (0, (build_error_result "a" "e0", "failed"))]
    (by decide) (by decide)
  exact ⟨h.1 0 (by decide), h.2.2.2.1⟩

lemma sortedHighRisk_eq_nil_iff (l : List Nat) :
    sortedHighRisk l = [] ↔ ∀ p ∈ l, p ∉ HIGH_RISK_PORTS := by
  have hperm := List.perm_insertionSort (· ≤ ·)
    ((l.filter (fun p => decide (p ∈ HIGH_RISK_PORTS))).dedup)
  constructor
  · intro h
    have h0 : sortedHighRisk l
        = (l.filter (fun p => decide (p ∈ HIGH_RISK_PORTS))).dedup.insertionSort
            (· ≤ ·) := rfl
    rw [h0] at h
    rw [h] at hperm
    have h2 : (l.filter (fun p => decide (p ∈ HIGH_RISK_PORTS))).dedup = [] := by
      have := hperm.length_eq
      simp at this
      exact List.eq_nil_of_length_eq_zero this.symm
    have h3 : l.filter (fun p => decide (p ∈ HIGH_RISK_PORTS)) = [] :=
      (List.dedup_eq_nil _).mp h2
    intro p hp hmem
    have := List.filter_eq_nil_iff.mp h3 p hp
    simp [hmem] at this
  · intro h
    have h3 : l.filter (fun p => decide (p ∈ HIGH_RISK_PORTS)) = [] :=
      List.filter_eq_nil_iff.mpr (by
        intro a ha
        simpa using h a ha)
    show ((l.filter (fun p => decide (p ∈ HIGH_RISK_PORTS))).dedup).insertionSort
      (· ≤ ·) = []
    rw [h3]
    rfl

lemma sortedHighRisk_cond_true (l : List Nat)
    (hex : ∃ p ∈ l, p ∈ HIGH_RISK_PORTS) :
    (!(sortedHighRisk l).isEmpty) = true := by
  rcases hne : sortedHighRisk l with _ | ⟨a, rest⟩
  · rcases hex with ⟨p, hp, hmem⟩
    exact absurd hmem ((sortedHighRisk_eq_nil_iff l).mp hne p hp)
  · rfl

lemma sortedHighRisk_cond_false (l : List Nat)
    (hnone : ∀ p ∈ l, p ∉ HIGH_RISK_PORTS) :
    ¬((!(sortedHighRisk l).isEmpty) = true) := by
  rw [(sortedHighRisk_eq_nil_iff l).mpr hnone]
  simp

lemma deterministic_risk_high (scan : ScanPayload)
    (hwf : gcpServicePresent scan = true)
    (hex : ∃ p ∈ scan.open_ports, p ∈ HIGH_RISK_PORTS) :
    ∃ s rec, deterministic_risk scan = Except.ok (jstr "high", s, rec) := by
  have hhr := sortedHighRisk_cond_true scan.open_ports hex
  simp only [deterministic_risk]
  rw [if_pos hhr]
  by_cases hA : scan.metadata.bind Metadata.provider = some "AMAZON"
      ∧ (scan.metadata.bind Metadata.aws).isSome = true
  · rw [if_pos hA]
    split_ifs <;> exact ⟨_, _, rfl⟩
  · rw [if_neg hA]
    by_cases hG : scan.metadata.bind Metadata.provider = some "GOOGLE"
        ∧ (scan.metadata.bind Metadata.gcp).isSome = true
    · rw [if_pos hG]
      rcases hsvc : (scan.metadata.bind Metadata.gcp).bind GCPInfo.service
        with _ | svc
      · exfalso
        rcases Option.isSome_iff_exists.mp hG.2 with ⟨gi, hgi⟩
        rw [hgi] at hsvc
        simp only [Option.some_bind] at hsvc
        unfold gcpServicePresent at hwf
        rw [hgi] at hwf
        simp [hsvc] at hwf
      · simp only [gcp_high_branch]
        split_ifs <;> exact ⟨_, _, rfl⟩
    · rw [if_neg hG]
      exact ⟨_, _, rfl⟩

lemma deterministic_risk_medium (scan : ScanPayload)
    (hnone : ∀ p ∈ scan.open_ports, p ∉ HIGH_RISK_PORTS)
    (hlen : 2 < scan.open_ports.length) :
    ∃ s rec, deterministic_risk scan = Except.ok (jstr "medium", s, rec) := by
  have hhr := sortedHighRisk_cond_false scan.open_ports hnone
  simp only [deterministic_risk]
  rw [if_neg hhr, if_pos hlen]
  split_ifs <;> exact ⟨_, _, rfl⟩

lemma standardExposure_iff (scan : ScanPayload) :
    standardExposure scan = true ↔
      (scan.metadata.bind Metadata.provider = some "AMAZON" ∧
        (scan.metadata.bind Metadata.aws).isSome = true ∧
        ((scan.metadata.bind Metadata.aws).bind AWSInfo.service = some "S3" ∨
         (scan.metadata.bind Metadata.aws).bind AWSInfo.service = some "CLOUDFRONT")) ∨
      (scan.metadata.bind Metadata.provider = some "GOOGLE" ∧
        (scan.metadata.bind Metadata.gcp).isSome = true ∧
        ∃ svc, (scan.metadata.bind Metadata.gcp).bind GCPInfo.service = some svc ∧
          (containsSubstr svc "Google Cloud Storage" = true ∨
           containsSubstr svc "Google Cloud CDN" = true)) := by
  simp only [standardExposure]
  rcases hsvc : (scan.metadata.bind Metadata.gcp).bind GCPInfo.service with _ | svc <;>
    simp [Bool.or_eq_true, Bool.and_eq_true, decide_eq_true_eq] <;>
    tauto

lemma note_ne_generic (s fix : String)
    (hfix : ("Limited exposure detected." : String).length < fix.length) :
    s ++ fix ≠ "Limited exposure detected." := by
  intro heq
  have hl := congrArg String.length heq
  rw [String.length_append] at hl
  omega

lemma deterministic_risk_low_std (scan : ScanPayload)
    (hnone : ∀ p ∈ scan.open_ports, p ∉ HIGH_RISK_PORTS)
    (hlen : ¬2 < scan.open_ports.length)
    (hstd : standardExposure scan = true) :
    ∃ note, deterministic_risk scan = Except.ok (jstr "low", jstr note, none) ∧
      note ≠ "Limited exposure detected." := by
  have hhr := sortedHighRisk_cond_false scan.open_ports hnone
  simp only [deterministic_risk]
  rw [if_neg hhr, if_neg hlen]
  rcases (standardExposure_iff scan).mp hstd with hA | hG
  · rw [if_pos hA]
    exact ⟨pyOptStr ((scan.metadata.bind Metadata.aws).bind AWSInfo.service)
        ++ " endpoint detected - standard AWS exposure.", rfl,
      note_ne_generic _ _ (by decide)⟩
  · have hA2 : ¬(scan.metadata.bind Metadata.provider = some "AMAZON"
        ∧ (scan.metadata.bind Metadata.aws).isSome = true
        ∧ ((scan.metadata.bind Metadata.aws).bind AWSInfo.service = some "S3"
          ∨ (scan.metadata.bind Metadata.aws).bind AWSInfo.service
              = some "CLOUDFRONT")) := by
      rintro ⟨h1, _, _⟩
      rw [hG.1] at h1
      simp at h1
    rw [if_neg hA2, if_pos ⟨hG.1, hG.2.1⟩]
    rcases hG.2.2 with ⟨svc, hsvc, hsub⟩
    rw [hsvc]
    simp only [gcp_low_branch]
    rw [if_pos hsub]
    exact ⟨svc ++ " endpoint detected - standard GCP exposure.", rfl,
      note_ne_generic _ _ (by decide)⟩

lemma deterministic_risk_low_generic (scan : ScanPayload)
    (hwf : gcpServicePresent scan = true)
    (hnone : ∀ p ∈ scan.open_ports, p ∉ HIGH_RISK_PORTS)
    (hlen : ¬2 < scan.open_ports.length)
    (hstd : standardExposure scan = false) :
    deterministic_risk scan
      = Except.ok (jstr "low", jstr "Limited exposure detected.", none) := by
  have hhr := sortedHighRisk_cond_false scan.open_ports hnone
  have hnot : ¬(standardExposure scan = true) := by simp [hstd]
  rw [standardExposure_iff scan] at hnot
  push_neg at hnot
  simp only [deterministic_risk]
  rw [if_neg hhr, if_neg hlen]
  have hA2 : ¬(scan.metadata.bind Metadata.provider = some "AMAZON"
      ∧ (scan.metadata.bind Metadata.aws).isSome = true
      ∧ ((scan.metadata.bind Metadata.aws).bind AWSInfo.service = some "S3"
        ∨ (scan.metadata.bind Metadata.aws).bind AWSInfo.service
            = some "CLOUDFRONT")) := by
    rintro ⟨h1, h2, h3 | h3⟩
    · exact (hnot.1 h1 h2).1 h3
    · exact (hnot.1 h1 h2).2 h3
  rw [if_neg hA2]
  by_cases hG : scan.metadata.bind Metadata.provider = some "GOOGLE"
      ∧ (scan.metadata.bind Metadata.gcp).isSome = true
  · rw [if_pos hG]
    rcases hsvc : (scan.metadata.bind Metadata.gcp).bind GCPInfo.service
      with _ | svc
    · exfalso
      rcases Option.isSome_iff_exists.mp hG.2 with ⟨gi, hgi⟩
      rw [hgi] at hsvc
      simp only [Option.some_bind] at hsvc
      unfold gcpServicePresent at hwf
      rw [hgi] at hwf
      simp [hsvc] at hwf
    · simp only [gcp_low_branch]
      have hsub : ¬(containsSubstr svc "Google Cloud Storage" = true
          ∨ containsSubstr svc "Google Cloud CDN" = true) := by
        rintro (hs | hs)
        · exact (hnot.2 hG.1 hG.2 svc hsvc).1 hs
        · exact (hnot.2 hG.1 hG.2 svc hsvc).2 hs
      rw [if_neg hsub]
  · rw [if_neg hG]

/-- Claim C3: the deterministic risk path (AI disabled or after
fall-through) tiers exactly in priority order: any open high-risk port
(22/3306/3389/5900/2375) → "high"; else more than two open ports →
"medium"; else a standard-exposure provider service (AWS S3/CLOUDFRONT,
GCP Cloud Storage/Cloud CDN) → "low" with a descriptive note and no
recommendation; else "low" with the generic limited-exposure summary and
no recommendation. In particular {22,80} → "high", {80,443,8080} →
"medium", {80} → "low". -/
theorem interpret_risk_deterministic_tiering :
    (∀ (scan : ScanPayload) (ai : Except String AiRisk),
      gcpServicePresent scan = true →
      interpret_risk scan false ai = deterministic_risk scan ∧
      ((∃ p ∈ scan.open_ports, p ∈ HIGH_RISK_PORTS) →
        ∃ s rec, deterministic_risk scan = Except.ok (jstr "high", s, rec)) ∧
      ((∀ p ∈ scan.open_ports, p ∉ HIGH_RISK_PORTS) →
        2 < scan.open_ports.length →
        ∃ s rec, deterministic_risk scan = Except.ok (jstr "medium", s, rec)) ∧
      ((∀ p ∈ scan.open_ports, p ∉ HIGH_RISK_PORTS) →
        ¬2 < scan.open_ports.length → standardExposure scan = true →
        ∃ note, deterministic_risk scan = Except.ok (jstr "low", jstr note, none) ∧
          note ≠ "Limited exposure detected.") ∧
      ((∀ p ∈ scan.open_ports, p ∉ HIGH_RISK_PORTS) →
        ¬2 < scan.open_ports.length → standardExposure scan = false →
        deterministic_risk scan
          = Except.ok (jstr "low", jstr "Limited exposure detected.", none))) ∧
    deterministic_risk ⟨[22, 80], none⟩
      = Except.ok (jstr "high",
          jstr "Critical services exposed on ports [22].",
          jstr "Restrict access, close management ports, and enforce firewall rules.") ∧
    deterministic_risk ⟨[80, 443, 8080], none⟩
      = Except.ok (jstr "medium",
          jstr "Multiple services exposed on the public internet.",
          jstr "Harden exposed services, enable TLS, and whitelist trusted sources.") ∧
    deterministic_risk ⟨[80], none⟩
      = Except.ok (jstr "low", jstr "Limited exposure detected.", none) := by
  refine ⟨?_, by rfl, by rfl, by rfl⟩
  intro scan ai hwf
  exact ⟨rfl,
    deterministic_risk_high scan hwf,
    deterministic_risk_medium scan,
    deterministic_risk_low_std scan,
    fun hnone hlen hstd =>
      deterministic_risk_low_generic scan hwf hnone hlen hstd⟩

/-- Witness for C3 at the concrete {22,80} payload. -/
theorem interpret_risk_deterministic_tiering_witness :
    gcpServicePresent ⟨[22, 80], none⟩ = true ∧
    (∃ s rec, deterministic_risk ⟨[22, 80], none⟩
      = Except.ok (jstr "high", s, rec)) ∧
    interpret_risk ⟨[22, 80], none⟩ false (Except.error "e")
      = deterministic_risk ⟨[22, 80], none⟩ := by
  have h := interpret_risk_deterministic_tiering.1 ⟨[22, 80], none⟩
    (Except.error "e") (by decide)
  exact ⟨by decide, h.2.1 (by decide), h.1⟩
